import Mathlib

/-!
Shallow embedding of the web-scraping aggregation pipeline
(`skillrack-simple.js` + the main scraper module).

Modelling conventions:
* JS epoch-millisecond clocks are `Int`; counts are `Nat`; error messages
  (`error.message`) are `String`; fallible JS async functions are embedded as
  functions returning `Except String α`.
* Remote HTTP responses are supplied by oracle functions bundled in `Net`
  (indexed by identity and, where the code retries, by the 0-based attempt
  number), so theorems quantify over every possible remote behaviour.
* Effectful steps thread an explicit `World` (the module-level cache and
  rate-limiter singletons plus the clock) and record an observable event
  trace (`Ev`) of cache reads/writes, rate-limiter waits, remote calls and
  back-off sleeps.  Sleeps and waits advance the clock deterministically by
  exactly their requested duration; the I/O itself is instantaneous.
* The single JS cache object is keyed by strings prefixed with the platform
  name (`leetcode_…`, `github_…`, …).  Because the key spaces are disjoint,
  it is modelled as one typed map per platform inside `World`; the `Cache`
  class's `get`/`set` logic itself is embedded once, polymorphically.
* `Promise.allSettled` / `Promise.all` fan-outs are threaded sequentially
  through the `World`: each platform only ever touches its own cache keys
  and its own rate limiter, so the values produced agree with every
  interleaving; only timing fields depend on the schedule.
-/

/-- `CONFIG` constants from the source module. -/
def CONFIG.BATCH_SIZE : Nat := 100

def CONFIG.CONCURRENCY : Nat := 10

def CONFIG.RETRY_ATTEMPTS : Nat := 3

def CONFIG.RETRY_DELAY : Int := 2000

def CONFIG.CACHE_DURATION : Int := 24 * 60 * 60 * 1000

def CONFIG.RATE_LIMIT_DELAY : Int := 200

/-- One stored cache entry: `{ data, timestamp }` as written by `Cache.set`. -/
structure CacheItem (α : Type) where
  data : α
  timestamp : Int
deriving Repr, DecidableEq

/-- The in-memory `this.cache` object, restricted to one platform's key space. -/
abbrev CacheMap (α : Type) := String → Option (CacheItem α)

/-- The empty cache (fresh `{}`). -/
def CacheMap.empty (α : Type) : CacheMap α := fun _ => none

/-- `Cache.get(key)`: returns `item.data` when an entry exists and
`Date.now() - item.timestamp < CONFIG.CACHE_DURATION`, else `null` (here `none`).
`now` is the clock value at lookup time. -/
def Cache.get {α : Type} (c : CacheMap α) (now : Int) (key : String) : Option α :=
  match c key with
  | some item => if now - item.timestamp < CONFIG.CACHE_DURATION then some item.data else none
  | none => none

/-- `Cache.set(key, data)`: unconditionally stores `{ data, timestamp: Date.now() }`. -/
def Cache.set {α : Type} (c : CacheMap α) (now : Int) (key : String) (data : α) : CacheMap α :=
  fun k => if k = key then some ⟨data, now⟩ else c k

/-- A `RateLimiter` instance: `delay` (minimum interval, ms) and `lastRequest`. -/
structure RateLimiter where
  delay : Int
  lastRequest : Int
deriving Repr, DecidableEq

/-- `RateLimiter.wait()` invoked at clock value `now`: if less than `delay` ms
elapsed since `lastRequest`, sleeps for the remainder; then stores the current
time into `lastRequest`.  Returns the completion instant and the new state. -/
def RateLimiter.wait (rl : RateLimiter) (now : Int) : Int × RateLimiter :=
  let timeSinceLastRequest := now - rl.lastRequest
  let done := if timeSinceLastRequest < rl.delay then now + (rl.delay - timeSinceLastRequest) else now
  (done, { rl with lastRequest := done })

/-- Two `wait()` calls on the same limiter started concurrently (e.g. under
`Promise.all`): in the JS event loop both run synchronously up to their
`setTimeout`, so BOTH read the same `lastRequest` before either writes it
back.  Completions are computed from the shared pre-state; the later
completion's write to `lastRequest` lands last. -/
def waitConcurrent2 (rl : RateLimiter) (s1 s2 : Int) : Int × Int × RateLimiter :=
  let r1 := RateLimiter.wait rl s1
  let r2 := RateLimiter.wait rl s2
  (r1.1, r2.1, if r1.1 ≤ r2.1 then r2.2 else r1.2)

/-- LeetCode metrics: `{ total, easy, medium, hard }`. -/
structure LeetcodeMetrics where
  total : Nat
  easy : Nat
  medium : Nat
  hard : Nat
deriving Repr, DecidableEq

/-- GitHub metrics: `{ repos, mergedPRs }`. -/
structure GithubMetrics where
  repos : Nat
  mergedPRs : Nat
deriving Repr, DecidableEq

/-- Codeforces metrics: `{ solved }`. -/
structure CFMetrics where
  solved : Nat
deriving Repr, DecidableEq

/-- AtCoder metrics: `{ solved }`. -/
structure AtcoderMetrics where
  solved : Nat
deriving Repr, DecidableEq

/-- SkillRack user info extracted from the profile page. -/
structure UserInfo where
  name : String
  profileFound : Bool
deriving Repr, DecidableEq

/-- SkillRack metrics: `{ solved, userInfo }` (`userInfo: null` is `none`). -/
structure SkillrackMetrics where
  solved : Nat
  userInfo : Option UserInfo
deriving Repr, DecidableEq

def lcZero : LeetcodeMetrics := ⟨0, 0, 0, 0⟩

def ghZero : GithubMetrics := ⟨0, 0⟩

def cfZero : CFMetrics := ⟨0⟩

def acZero : AtcoderMetrics := ⟨0⟩

def srZero : SkillrackMetrics := ⟨0, none⟩

/-- Observable side effects of the pipeline, in program order. -/
inductive Ev where
  | cacheGet (key : String)
  | cacheSet (key : String)
  | rateWait (limiter : String)
  | remote (endpoint : String)
  | sleep (ms : Int)
deriving Repr, DecidableEq

/-- The module-level mutable singletons threaded through every operation:
the per-platform slices of the shared `cache`, the rate limiters, and the
clock (`Date.now()`). -/
structure World where
  lcCache : CacheMap LeetcodeMetrics
  ghCache : CacheMap GithubMetrics
  cfCache : CacheMap CFMetrics
  acCache : CacheMap AtcoderMetrics
  time : Int
  leetcodeLimiter : RateLimiter
  githubUserLimiter : RateLimiter
  githubSearchLimiter : RateLimiter
  codeforcesLimiter : RateLimiter
  generalLimiter : RateLimiter
  skillrackLimiter : RateLimiter

/-- The initial `World`: empty caches, limiters as constructed at module load
(`lastRequest = 0` with the configured delays), clock at `t0`. -/
def World.init (t0 : Int) : World where
  lcCache := CacheMap.empty _
  ghCache := CacheMap.empty _
  cfCache := CacheMap.empty _
  acCache := CacheMap.empty _
  time := t0
  leetcodeLimiter := ⟨500, 0⟩
  githubUserLimiter := ⟨1200, 0⟩
  githubSearchLimiter := ⟨3000, 0⟩
  codeforcesLimiter := ⟨1000, 0⟩
  generalLimiter := ⟨200, 0⟩
  skillrackLimiter := ⟨800, 0⟩

/-- Result of one effectful step: a value, the updated world, the event trace. -/
structure StepR (α : Type) where
  res : α
  w : World
  ev : List Ev

/-- One element of LeetCode's `acSubmissionNum` array. -/
structure AcSubmission where
  difficulty : String
  count : Nat
deriving Repr, DecidableEq

/-- One Codeforces submission (the fields the code reads). -/
structure CFSubmission where
  verdict : String
  contestId : Nat
  index : String
deriving Repr, DecidableEq

/-- Codeforces `user.status` response body. -/
structure CFResponse where
  status : String
  result : List CFSubmission
deriving Repr, DecidableEq

/-- Remote-response oracles.  Each is indexed by the identity used in the
request and, where the call sits inside `retryRequest`, by the 0-based
attempt number.  `Except.error msg` models the HTTP call throwing. -/
structure Net where
  /-- LeetCode GraphQL: `response.data?.data?.matchedUser?.submitStatsGlobal?.acSubmissionNum`
  (`none` when any link of that optional chain is absent). -/
  lc : String → Nat → Except String (Option (List AcSubmission))
  /-- GitHub users API: `userResponse.data.public_repos`. -/
  ghUser : String → Nat → Except String Nat
  /-- GitHub search API: `prResponse.data.total_count`. -/
  ghSearch : String → Nat → Except String Nat
  /-- Codeforces `user.status` response. -/
  cf : String → Nat → Except String CFResponse
  /-- AtCoder `ac_rank`: `response.data?.count` (`none` when absent). -/
  ac : String → Nat → Except String (Option Nat)
  /-- SkillRack profile page fetch, keyed by the full profile URL. -/
  sr : String → Except String String
  /-- Modelled abstractly: the regex-based extraction heuristics of
  `scrapeSkillRack` (name match plus solved-count patterns and the
  contextual largest-number fallback, source lines 66-110) as a function of
  the page HTML, returning the optional extracted `userInfo` and the final
  `solved` count.  The spec explicitly treats these heuristics as
  adapter-internal detail, not part of the core contract. -/
  srExtract : String → Option UserInfo × Nat

/-- `retryRequest`'s loop from attempt `i`, with `remaining` further attempts
allowed after this one.  On failure with attempts remaining it sleeps
`CONFIG.RETRY_DELAY * 2 ^ i` ms and retries; on the final failure it
propagates the error. -/
def retryRequestGo {α : Type} (body : Nat → World → StepR (Except String α))
    (i remaining : Nat) (w : World) : StepR (Except String α) :=
  let s := body i w
  match s.res with
  | .ok a => ⟨.ok a, s.w, s.ev⟩
  | .error e =>
    match remaining with
    | 0 => ⟨.error e, s.w, s.ev⟩
    | r + 1 =>
      let d : Int := CONFIG.RETRY_DELAY * 2 ^ i
      let rest := retryRequestGo body (i + 1) r { s.w with time := s.w.time + d }
      ⟨rest.res, rest.w, s.ev ++ .sleep d :: rest.ev⟩

/-- `retryRequest(fn, attempts)`: runs `fn` up to `attempts` times with
exponential back-off, propagating the last failure.  Faithful for
`attempts ≥ 1`; every call site in the source uses the default
`CONFIG.RETRY_ATTEMPTS = 3` (for `attempts = 0` the JS loop body never runs
and the function resolves `undefined`, a case the program never exercises). -/
def retryRequest {α : Type} (body : Nat → World → StepR (Except String α))
    (attempts : Nat) (w : World) : StepR (Except String α) :=
  retryRequestGo body 0 (attempts - 1) w

/-- A plain fallible operation (no state, no events of its own) lifted to a
`retryRequest` body; one `Ev.remote "operation"` marks each invocation. -/
def opBody {α : Type} (fn : Nat → Except String α) (i : Nat) (w : World) :
    StepR (Except String α) :=
  ⟨fn i, w, [.remote "operation"]⟩

/-- JS truthiness of an optional string value: `undefined`/`null` and the
empty string are falsy. -/
def truthyS : Option String → Bool
  | none => false
  | some s => !(s == "")

def lcKey (u : String) : String := "leetcode_" ++ u

def ghKey (u : String) : String := "github_" ++ u

def cfKey (u : String) : String := "codeforces_" ++ u

def acKey (u : String) : String := "atcoder_" ++ u

/-- Normalization of the LeetCode `acSubmissionNum` array
(`data.find(item => item.difficulty === d)?.count || 0` for each bucket). -/
def lcParse (data : List AcSubmission) : LeetcodeMetrics where
  total := (((data.find? fun item => item.difficulty == "All").map (·.count)).getD 0)
  easy := (((data.find? fun item => item.difficulty == "Easy").map (·.count)).getD 0)
  medium := (((data.find? fun item => item.difficulty == "Medium").map (·.count)).getD 0)
  hard := (((data.find? fun item => item.difficulty == "Hard").map (·.count)).getD 0)

/-- Distinct solved problems from Codeforces submissions: the size of the set
of `"{contestId}-{index}"` strings over submissions with verdict `OK`. -/
def cfSolvedCount (subs : List CFSubmission) : Nat :=
  (((subs.filter fun s => s.verdict == "OK").map
      fun s => toString s.contestId ++ "-" ++ s.index).dedup).length

/-- Whether `needle` occurs as a contiguous run inside `hay`. -/
def listContains (needle hay : List Char) : Bool :=
  match hay with
  | [] => needle.isEmpty
  | _ :: t => needle.isPrefixOf hay || listContains needle t

/-- Substring containment (`String.prototype.includes`). -/
def strContains (hay needle : String) : Bool :=
  listContains needle.toList hay.toList

/-- The response validation of `scrapeSkillRack`:
`!html || html.length < 1000 || html.includes(…login/error markers…)`. -/
def htmlInvalid (html : String) : Bool :=
  html == "" || html.length < 1000 ||
    strContains html "Please login" || strContains html "Login required" ||
    strContains html "error" || strContains html "Error"

def srMappedUrl (id key : String) : String :=
  "https://www.skillrack.com/faces/resume.xhtml?id=" ++ id ++ "&key=" ++ key

def srFallbackUrl (username : String) : String :=
  "https://www.skillrack.com/faces/resume.xhtml?id=" ++ username

/-- `scrapeSkillRack(skillrackData, rateLimiter)` from `skillrack-simple.js`.
Accepts either a bare-string identity (then `username = id = skillrackData`,
`key = null`) or an object `{ username, id, key }`.  After the rate-limiter
wait it fetches the mapped profile URL when both `id` and `key` are truthy,
else the fallback URL built from `username`; any fetch error or invalid page
yields the zero metrics.  Extraction heuristics are the `Net.srExtract`
oracle; the final `userInfo || { name: username, profileFound: false }`
default is structural. -/
def scrapeSkillRack (skillrackData : Option (String ⊕ (Option String × Option String × Option String)))
    (net : Net) (w : World) : StepR SkillrackMetrics :=
  match skillrackData with
  | none => ⟨srZero, w, []⟩
  | some d =>
    let username : Option String := match d with
      | .inl s => some s
      | .inr (u, _, _) => u
    let idv : Option String := match d with
      | .inl s => some s
      | .inr (_, i, _) => i
    let keyv : Option String := match d with
      | .inl _ => none
      | .inr (_, _, k) => k
    if truthyS username then
      let uname := username.getD ""
      let wc := RateLimiter.wait w.skillrackLimiter w.time
      let w1 : World := { w with time := wc.1, skillrackLimiter := wc.2 }
      let profileUrl :=
        if truthyS idv && truthyS keyv then srMappedUrl (idv.getD "") (keyv.getD "")
        else srFallbackUrl uname
      let evs : List Ev := [.rateWait "skillrack", .remote profileUrl]
      match net.sr profileUrl with
      | .error _ => ⟨srZero, w1, evs⟩
      | .ok html =>
        if htmlInvalid html then ⟨srZero, w1, evs⟩
        else
          let ext := net.srExtract html
          ⟨⟨ext.2, some (ext.1.getD ⟨uname, false⟩)⟩, w1, evs⟩
    else ⟨srZero, w, []⟩

/-- The identity stored under `handles.skillrack`: either the legacy bare
string or the `{ username, id, key }` object. -/
abbrev SkillrackId := String ⊕ (Option String × Option String × Option String)

/-- `Adapters.leetcode(username)`. -/
def lcClosure (net : Net) (u : String) (i : Nat) (w : World) :
    StepR (Except String LeetcodeMetrics) :=
  match net.lc u i with
  | .error e => ⟨.error e, w, [.remote "leetcode"]⟩
  | .ok none => ⟨.ok lcZero, w, [.remote "leetcode"]⟩
  | .ok (some data) =>
    let result := lcParse data
    ⟨.ok result, { w with lcCache := Cache.set w.lcCache w.time (lcKey u) result },
      [.remote "leetcode", .cacheSet (lcKey u)]⟩

def Adapters.leetcode (username : Option String) (net : Net) (w : World) :
    StepR (Except String LeetcodeMetrics) :=
  if truthyS username then
    let u := username.getD ""
    match Cache.get w.lcCache w.time (lcKey u) with
    | some m => ⟨.ok m, w, [.cacheGet (lcKey u)]⟩
    | none =>
      let wc := RateLimiter.wait w.leetcodeLimiter w.time
      let w1 : World := { w with time := wc.1, leetcodeLimiter := wc.2 }
      let r := retryRequest (lcClosure net u) CONFIG.RETRY_ATTEMPTS w1
      ⟨r.res, r.w, .cacheGet (lcKey u) :: .rateWait "leetcode" :: r.ev⟩
  else ⟨.ok lcZero, w, []⟩

/-- One attempt of `Adapters.github(username)`: the user lookup (a failure is
re-thrown to `retryRequest` by the outer catch), then inside an inner
try/catch the search-limiter wait and the merged-PR search (a failure there
just yields 0 PRs), then the cache write. -/
def ghClosure (net : Net) (u : String) (i : Nat) (w : World) :
    StepR (Except String GithubMetrics) :=
  match net.ghUser u i with
  | .error e => ⟨.error e, w, [.remote "githubUser"]⟩
  | .ok repos =>
    let wc := RateLimiter.wait w.githubSearchLimiter w.time
    let w1 : World := { w with time := wc.1, githubSearchLimiter := wc.2 }
    let mergedPRs : Nat := match net.ghSearch u i with
      | .error _ => 0
      | .ok n => n
    let result : GithubMetrics := ⟨repos, mergedPRs⟩
    ⟨.ok result, { w1 with ghCache := Cache.set w1.ghCache w1.time (ghKey u) result },
      [.remote "githubUser", .rateWait "githubSearch", .remote "githubSearch",
        .cacheSet (ghKey u)]⟩

def Adapters.github (username : Option String) (net : Net) (w : World) :
    StepR (Except String GithubMetrics) :=
  if truthyS username then
    let u := username.getD ""
    match Cache.get w.ghCache w.time (ghKey u) with
    | some m => ⟨.ok m, w, [.cacheGet (ghKey u)]⟩
    | none =>
      let wc := RateLimiter.wait w.githubUserLimiter w.time
      let w1 : World := { w with time := wc.1, githubUserLimiter := wc.2 }
      let r := retryRequest (ghClosure net u) CONFIG.RETRY_ATTEMPTS w1
      ⟨r.res, r.w, .cacheGet (ghKey u) :: .rateWait "githubUser" :: r.ev⟩
  else ⟨.ok ghZero, w, []⟩

/-- One attempt of `Adapters.codeforces(username)`: on a non-`OK` status the
zero value is returned WITHOUT a cache write; otherwise the distinct solved
count is computed and cached. -/
def cfClosure (net : Net) (u : String) (i : Nat) (w : World) :
    StepR (Except String CFMetrics) :=
  match net.cf u i with
  | .error e => ⟨.error e, w, [.remote "codeforces"]⟩
  | .ok resp =>
    if resp.status == "OK" then
      let result : CFMetrics := ⟨cfSolvedCount resp.result⟩
      ⟨.ok result, { w with cfCache := Cache.set w.cfCache w.time (cfKey u) result },
        [.remote "codeforces", .cacheSet (cfKey u)]⟩
    else ⟨.ok cfZero, w, [.remote "codeforces"]⟩

def Adapters.codeforces (username : Option String) (net : Net) (w : World) :
    StepR (Except String CFMetrics) :=
  if truthyS username then
    let u := username.getD ""
    match Cache.get w.cfCache w.time (cfKey u) with
    | some m => ⟨.ok m, w, [.cacheGet (cfKey u)]⟩
    | none =>
      let wc := RateLimiter.wait w.codeforcesLimiter w.time
      let w1 : World := { w with time := wc.1, codeforcesLimiter := wc.2 }
      let r := retryRequest (cfClosure net u) CONFIG.RETRY_ATTEMPTS w1
      ⟨r.res, r.w, .cacheGet (cfKey u) :: .rateWait "codeforces" :: r.ev⟩
  else ⟨.ok cfZero, w, []⟩

/-- One attempt of `Adapters.atcoder(username)`: `response.data?.count || 0`,
always cached on success. -/
def acClosure (net : Net) (u : String) (i : Nat) (w : World) :
    StepR (Except String AtcoderMetrics) :=
  match net.ac u i with
  | .error e => ⟨.error e, w, [.remote "atcoder"]⟩
  | .ok cnt =>
    let result : AtcoderMetrics := ⟨cnt.getD 0⟩
    ⟨.ok result, { w with acCache := Cache.set w.acCache w.time (acKey u) result },
      [.remote "atcoder", .cacheSet (acKey u)]⟩

/-- `Adapters.atcoder` waits on the general-purpose `rateLimiter`. -/
def Adapters.atcoder (username : Option String) (net : Net) (w : World) :
    StepR (Except String AtcoderMetrics) :=
  if truthyS username then
    let u := username.getD ""
    match Cache.get w.acCache w.time (acKey u) with
    | some m => ⟨.ok m, w, [.cacheGet (acKey u)]⟩
    | none =>
      let wc := RateLimiter.wait w.generalLimiter w.time
      let w1 : World := { w with time := wc.1, generalLimiter := wc.2 }
      let r := retryRequest (acClosure net u) CONFIG.RETRY_ATTEMPTS w1
      ⟨r.res, r.w, .cacheGet (acKey u) :: .rateWait "general" :: r.ev⟩
  else ⟨.ok acZero, w, []⟩

/-- `Adapters.skillrack(skillrackData)`: a falsy value or a bare string or an
object with a falsy `id` or `key` short-circuits to the zero metrics; only an
object with both `id` and `key` truthy is handed to `scrapeSkillRack`.  No
cache, no retry, and a total (never-throwing) result. -/
def Adapters.skillrack (skillrackData : Option SkillrackId) (net : Net) (w : World) :
    StepR SkillrackMetrics :=
  match skillrackData with
  | none => ⟨srZero, w, []⟩
  | some (.inl _) => ⟨srZero, w, []⟩
  | some (.inr (u, i, k)) =>
    if truthyS i && truthyS k then scrapeSkillRack (some (.inr (u, i, k))) net w
    else ⟨srZero, w, []⟩

/-- Per-platform identities of one student (`student.handles`). -/
structure Handles where
  leetcode : Option String
  github : Option String
  codeforces : Option String
  atcoder : Option String
  skillrack : Option SkillrackId
deriving DecidableEq

/-- One cohort entry: `{ id, name, handles }`. -/
structure Student where
  id : String
  name : String
  handles : Option Handles
deriving DecidableEq

/-- The merged per-student data block, including the derived `totalCP`. -/
structure AggData where
  leetcode : LeetcodeMetrics
  github : GithubMetrics
  codeforces : CFMetrics
  atcoder : AtcoderMetrics
  skillrack : SkillrackMetrics
  totalCP : Nat
deriving Repr, DecidableEq

/-- All-zero data block with `totalCP: 0`, as built by the catch branch of
`processStudent`. -/
def zeroAggData : AggData :=
  ⟨lcZero, ghZero, cfZero, acZero, srZero, 0⟩

/-- One emitted record per student.  `timestamp` holds the epoch instant that
the JS renders with `toISOString()`; `error` is present only on the catch
path. -/
structure AggregateResult where
  id : String
  name : String
  handles : Option Handles
  data : AggData
  processingTime : Int
  timestamp : Int
  error : Option String

/-- `processStudent(student)`: fans out the five adapters over the student's
handles (`Promise.allSettled`, threaded sequentially — see the header note),
substitutes each platform's zero value for a rejected adapter call, derives
`totalCP = leetcode.total + codeforces.solved + atcoder.solved + skillrack.solved`,
and never rejects.  `fault` models an unexpected exception thrown inside the
`try` block before the join (the JS catch branch): when present, the record
is emitted with all-zero data and the error message recorded. -/
def processStudent (s : Student) (net : Net) (fault : Option String) (w : World) :
    StepR AggregateResult :=
  match fault with
  | some msg =>
    ⟨{ id := s.id, name := s.name, handles := s.handles, data := zeroAggData,
       processingTime := w.time - w.time, timestamp := w.time, error := some msg }, w, []⟩
  | none =>
    let t0 := w.time
    let a1 := Adapters.leetcode (s.handles.bind (·.leetcode)) net w
    let a2 := Adapters.github (s.handles.bind (·.github)) net a1.w
    let a3 := Adapters.codeforces (s.handles.bind (·.codeforces)) net a2.w
    let a4 := Adapters.atcoder (s.handles.bind (·.atcoder)) net a3.w
    let a5 := Adapters.skillrack (s.handles.bind (·.skillrack)) net a4.w
    let lc := match a1.res with | .ok m => m | .error _ => lcZero
    let gh := match a2.res with | .ok m => m | .error _ => ghZero
    let cf := match a3.res with | .ok m => m | .error _ => cfZero
    let ac := match a4.res with | .ok m => m | .error _ => acZero
    let sr := a5.res
    ⟨{ id := s.id, name := s.name, handles := s.handles,
       data := { leetcode := lc, github := gh, codeforces := cf, atcoder := ac,
                 skillrack := sr,
                 totalCP := lc.total + cf.solved + ac.solved + sr.solved },
       processingTime := a5.w.time - t0, timestamp := a5.w.time, error := none },
      a5.w, a1.ev ++ a2.ev ++ a3.ev ++ a4.ev ++ a5.ev⟩

/-- Results accumulated by the batch layers (event traces are not needed
above the adapter level and are dropped, matching the claims' scope). -/
structure BatchR where
  results : List AggregateResult
  w : World

/-- One chunk's `Promise.all(chunk.map(processStudent))`, threaded
sequentially through the world; result order is chunk order.  `fault` gives
the (optional) unexpected in-join exception per student. -/
def processChunk (chunk : List Student) (net : Net) (fault : Student → Option String)
    (w : World) : BatchR :=
  match chunk with
  | [] => ⟨[], w⟩
  | s :: rest =>
    let r := processStudent s net (fault s) w
    let rs := processChunk rest net fault r.w
    ⟨r.res :: rs.results, rs.w⟩

/-- `processBatch(students, …)`: slices the batch into chunks of
`CONFIG.CONCURRENCY`, awaits each chunk in full before the next, and appends
chunk results in chunk-input order. -/
def processBatch (students : List Student) (net : Net) (fault : Student → Option String)
    (w : World) : BatchR :=
  if h : students = [] then ⟨[], w⟩
  else
    let c := processChunk (students.take CONFIG.CONCURRENCY) net fault w
    let r := processBatch (students.drop CONFIG.CONCURRENCY) net fault c.w
    ⟨c.results ++ r.results, r.w⟩
termination_by students.length
decreasing_by
  simp only [List.length_drop]
  have : 0 < students.length := List.length_pos.mpr h
  simp only [CONFIG.CONCURRENCY]
  omega

/-- The batch loop of `runScraper`: slices the cohort into batches of
`CONFIG.BATCH_SIZE`, runs `processBatch` on each, appends batch results in
order, and pauses 1000 ms between batches (only when another batch
follows).  Input loading, snapshot writes and logging are I/O formatting
outside the claims. -/
def runScraperBatches (students : List Student) (net : Net)
    (fault : Student → Option String) (w : World) : BatchR :=
  if h : students = [] then ⟨[], w⟩
  else
    let b := processBatch (students.take CONFIG.BATCH_SIZE) net fault w
    let w1 : World :=
      if students.drop CONFIG.BATCH_SIZE = [] then b.w
      else { b.w with time := b.w.time + 1000 }
    let r := runScraperBatches (students.drop CONFIG.BATCH_SIZE) net fault w1
    ⟨b.results ++ r.results, r.w⟩
termination_by students.length
decreasing_by
  simp only [List.length_drop]
  have : 0 < students.length := List.length_pos.mpr h
  simp only [CONFIG.BATCH_SIZE]
  omega

/-- `Array.prototype.reduce` without an initial value: `none` on an empty
array (the JS throws a `TypeError` there), else the left fold seeded with the
first element. -/
def reduceNoInit {α : Type} (f : α → α → α) : List α → Option α
  | [] => none
  | x :: xs => some (xs.foldl f x)

/-- The reducer picking the student with the larger LeetCode total
(first-seen wins ties). -/
def pickTopLc (mx r : AggregateResult) : AggregateResult :=
  if r.data.leetcode.total > mx.data.leetcode.total then r else mx

/-- JS truthiness of the optional `error` field (`r.error` filters). -/
def jsTruthyErr (r : AggregateResult) : Bool := truthyS r.error

structure TopSolver where
  name : String
  problems : Nat
deriving Repr, DecidableEq

structure LeetcodeSummary where
  totalProblems : Nat
  avgProblems : ℚ
  topSolver : Option TopSolver
deriving Repr, DecidableEq

structure GithubSummary where
  totalRepos : Nat
  totalMergedPRs : Nat
  avgRepos : ℚ
  avgMergedPRs : ℚ
deriving Repr, DecidableEq

structure SolvedSummary where
  totalProblems : Nat
  avgProblems : ℚ
deriving Repr, DecidableEq

structure PerfSummary where
  avgProcessingTime : ℚ
  errors : Nat
deriving Repr, DecidableEq

structure Summary where
  totalStudents : Nat
  leetcode : LeetcodeSummary
  github : GithubSummary
  codeforces : SolvedSummary
  atcoder : SolvedSummary
  performance : PerfSummary
deriving Repr, DecidableEq

/-- `generateSummary(results)`: totals and averages per platform (JS float
division modelled over `ℚ`), the error count (`results.filter(r => r.error)`),
and the top LeetCode solver found by a no-initial-value `reduce` — which
throws a `TypeError` on an empty list, making the whole function fail there
(`Except.error`). -/
def generateSummary (results : List AggregateResult) : Except String Summary :=
  let n : ℚ := (results.length : ℚ)
  let lcTotal := results.foldl (fun sum r => sum + r.data.leetcode.total) 0
  let ghRepos := results.foldl (fun sum r => sum + r.data.github.repos) 0
  let ghPRs := results.foldl (fun sum r => sum + r.data.github.mergedPRs) 0
  let cfTotal := results.foldl (fun sum r => sum + r.data.codeforces.solved) 0
  let acTotal := results.foldl (fun sum r => sum + r.data.atcoder.solved) 0
  let procTotal : Int := results.foldl (fun sum r => sum + r.processingTime) 0
  match reduceNoInit pickTopLc results with
  | none => .error "TypeError: Reduce of empty array with no initial value"
  | some top =>
    .ok
      { totalStudents := results.length
        leetcode :=
          { totalProblems := lcTotal
            avgProblems := (lcTotal : ℚ) / n
            topSolver := some ⟨top.name, top.data.leetcode.total⟩ }
        github :=
          { totalRepos := ghRepos
            totalMergedPRs := ghPRs
            avgRepos := (ghRepos : ℚ) / n
            avgMergedPRs := (ghPRs : ℚ) / n }
        codeforces := { totalProblems := cfTotal, avgProblems := (cfTotal : ℚ) / n }
        atcoder := { totalProblems := acTotal, avgProblems := (acTotal : ℚ) / n }
        performance :=
          { avgProcessingTime := (procTotal : ℚ) / n
            errors := (results.filter jsTruthyErr).length } }

/-- The identity projection of a student used to state order preservation. -/
def stuKey (s : Student) : String × String × Option Handles := (s.id, s.name, s.handles)

/-- The identity fields carried by an emitted record. -/
def resKey (r : AggregateResult) : String × String × Option Handles := (r.id, r.name, r.handles)

/-- Oracle on which every remote call throws (network down). -/
def netFail : Net where
  lc := fun _ _ => .error "network down"
  ghUser := fun _ _ => .error "network down"
  ghSearch := fun _ _ => .error "network down"
  cf := fun _ _ => .error "network down"
  ac := fun _ _ => .error "network down"
  sr := fun _ => .error "network down"
  srExtract := fun _ => (none, 0)

/-- LeetCode counts of the spec's end-to-end scenario A. -/
def dataScenA : List AcSubmission :=
  [⟨"All", 120⟩, ⟨"Easy", 80⟩, ⟨"Medium", 30⟩, ⟨"Hard", 10⟩]

/-- Oracle whose LeetCode endpoint always answers with scenario A's counts. -/
def netScenA : Net :=
  { netFail with lc := fun _ _ => .ok (some dataScenA) }

/-- A SkillRack profile page that passes the response validation: long
enough and free of the login/error markers. -/
def htmlOk : String := String.mk (List.replicate 1000 'a')

/-- Oracle whose SkillRack endpoint serves `htmlOk` and whose extraction
heuristic finds 7 solved problems and no name. -/
def netSR : Net :=
  { netFail with sr := fun _ => .ok htmlOk, srExtract := fun _ => (none, 7) }

/-- A mapped SkillRack identity (object with truthy `id` and `key`). -/
def srIdObj : SkillrackId := .inr (some "bob", some "123", some "k1")

/-- A record whose `error` field is present but empty — JS-falsy. -/
def rEmptyErr : AggregateResult :=
  ⟨"s1", "Alice", none, zeroAggData, 0, 0, some ""⟩

/-- A record carrying a non-empty error message. -/
def rErr : AggregateResult :=
  ⟨"s1", "Alice", none, zeroAggData, 0, 0, some "boom"⟩

/-- Oracle whose LeetCode endpoint answers with a broken optional chain
(absent `acSubmissionNum`). -/
def netLcNone : Net :=
  { netFail with lc := fun _ _ => .ok none }

/-- Oracle whose Codeforces endpoint answers with a non-`OK` API status. -/
def netCfBad : Net :=
  { netFail with cf := fun _ _ => .ok ⟨"FAILED", []⟩ }

/-- Oracle whose AtCoder endpoint answers without a `count` field. -/
def netAcNone : Net :=
  { netFail with ac := fun _ _ => .ok none }

/-- Oracle where the GitHub user lookup succeeds (5 repos) but the merged-PR
search throws. -/
def netGhPartial : Net :=
  { netFail with ghUser := fun _ _ => .ok 5 }

/-- Oracle where both GitHub calls succeed: 12 repos, 3 merged PRs. -/
def netScenGh : Net :=
  { netFail with ghUser := fun _ _ => .ok 12, ghSearch := fun _ _ => .ok 3 }

/-- A Codeforces `user.status` payload with 3 accepted submissions over 2
distinct problems. -/
def cfRespA : CFResponse :=
  ⟨"OK", [⟨"OK", 1, "A"⟩, ⟨"OK", 1, "A"⟩, ⟨"WRONG_ANSWER", 2, "B"⟩, ⟨"OK", 2, "B"⟩]⟩

/-- Oracle whose Codeforces endpoint always answers `cfRespA`. -/
def netScenCf : Net :=
  { netFail with cf := fun _ _ => .ok cfRespA }

/-- Oracle whose AtCoder endpoint answers with a count of 42. -/
def netScenAc : Net :=
  { netFail with ac := fun _ _ => .ok (some 42) }

/-- A student holding all four retried-platform handles. -/
def allHandlesStudent : Student :=
  ⟨"s1", "Alice", some ⟨some "alice", some "bob", some "carl", some "dave", none⟩⟩

/-! ## Theorems -/

/-- C3: In every AggregateResult emitted by processStudent, the derived total
(`totalCP`) equals the exact sum of the count-of-problems-solved metrics in
that same record — `leetcode.total + codeforces.solved + atcoder.solved +
skillrack.solved` — and (as the equation shows) the github repository and
merged-pull-request counts do not contribute. -/
theorem processStudent_totalCP_eq_sum (s : Student) (net : Net) (fault : Option String)
    (w : World) :
    (processStudent s net fault w).res.data.totalCP =
      (processStudent s net fault w).res.data.leetcode.total +
        (processStudent s net fault w).res.data.codeforces.solved +
        (processStudent s net fault w).res.data.atcoder.solved +
        (processStudent s net fault w).res.data.skillrack.solved := by
  cases fault <;> rfl

/-- C8: If the join inside processStudent throws unexpectedly (the `fault`
parameter models the unexpected exception caught by its catch branch),
processStudent still returns — with the student's id, name and handles,
all-zero metrics for every platform, a zero derived total, and the error
message recorded in the `error` field; the world is untouched. -/
theorem processStudent_fault_emits_error_record (s : Student) (net : Net) (msg : String)
    (w : World) :
    processStudent s net (some msg) w =
      ⟨{ id := s.id, name := s.name, handles := s.handles, data := zeroAggData,
         processingTime := 0, timestamp := w.time, error := some msg }, w, []⟩ := by
  simp [processStudent]

/-- C5: `Cache.get` returns the stored value iff an entry is present whose age
at lookup time is strictly below the 24h TTL (first and last conjuncts:
expired entries behave exactly like absent ones, and nothing is evicted —
`get` is a pure lookup); `Cache.set` unconditionally overwrites the entry for
its key with the new value and the current timestamp, leaving other keys
untouched. -/
theorem cache_contract :
    (∀ (α : Type) (c : CacheMap α) (now : Int) (key : String) (v : α),
        Cache.get c now key = some v ↔
          ∃ item, c key = some item ∧ item.data = v ∧
            now - item.timestamp < CONFIG.CACHE_DURATION) ∧
    (∀ (α : Type) (c : CacheMap α) (now : Int) (key : String) (v : α),
        Cache.set c now key v key = some ⟨v, now⟩) ∧
    (∀ (α : Type) (c : CacheMap α) (now : Int) (key k : String) (v : α),
        k ≠ key → Cache.set c now key v k = c k) ∧
    (∀ (α : Type) (c : CacheMap α) (now : Int) (key : String) (item : CacheItem α),
        c key = some item → CONFIG.CACHE_DURATION ≤ now - item.timestamp →
        Cache.get c now key = none) := by
  refine ⟨?_, ?_, ?_, ?_⟩
  · intro α c now key v
    unfold Cache.get
    cases hc : c key with
    | none => simp
    | some item =>
      constructor
      · intro h
        by_cases ht : now - item.timestamp < CONFIG.CACHE_DURATION
        · refine ⟨item, rfl, ?_, ht⟩
          simpa [ht] using h
        · simp [ht] at h
      · rintro ⟨item2, hitem, hdata, ht⟩
        obtain rfl : item = item2 := by simpa using hitem
        simp [ht, hdata]
  · intro α c now key v
    simp [Cache.set]
  · intro α c now key k v hk
    simp [Cache.set, hk]
  · intro α c now key item hc ht
    simp [Cache.get, hc, not_lt.mpr ht]

/-- Witness for `cache_contract`: concrete instances of the two conditional
conjuncts — a `set` leaves a different key alone, and an entry exactly TTL
old is reported as a miss. -/
theorem cache_contract_witness :
    Cache.set (CacheMap.empty Nat) 5 "k" 42 "j" = none ∧
    Cache.get (Cache.set (CacheMap.empty Nat) 5 "k" 42) (5 + CONFIG.CACHE_DURATION) "k" =
      none := by
  constructor
  · exact (cache_contract.2.2.1 Nat (CacheMap.empty Nat) 5 "k" "j" 42 (by decide)).trans rfl
  · exact cache_contract.2.2.2 Nat (Cache.set (CacheMap.empty Nat) 5 "k" 42)
      (5 + CONFIG.CACHE_DURATION) "k" ⟨42, 5⟩ (by decide) (by decide)

/-- The completion instant of `wait` is at least one full interval after the
`lastRequest` value it observed. -/
lemma RateLimiter.wait_fst_ge (rl : RateLimiter) (now : Int) :
    rl.lastRequest + rl.delay ≤ (rl.wait now).1 := by
  simp only [RateLimiter.wait]
  split <;> omega

/-- `wait` stores its completion instant as the new `lastRequest`. -/
lemma RateLimiter.wait_lastRequest (rl : RateLimiter) (now : Int) :
    (rl.wait now).2.lastRequest = (rl.wait now).1 := rfl

/-- `wait` leaves the configured interval unchanged. -/
lemma RateLimiter.wait_delay (rl : RateLimiter) (now : Int) :
    (rl.wait now).2.delay = rl.delay := rfl

/-- C7 counterexample: two `wait()` calls invoked concurrently on the same
fresh limiter (`minIntervalMs = 200`, both started at t = 0) both observe the
same `lastRequest` before either sleeps, and both complete at t = 200 — their
completions are separated by 0 ms, not by at least `minIntervalMs`. -/
theorem rateLimiter_concurrent_not_spaced_cex :
    (waitConcurrent2 ⟨200, 0⟩ 0 0).1 = 200 ∧
    (waitConcurrent2 ⟨200, 0⟩ 0 0).2.1 = 200 ∧
    (waitConcurrent2 ⟨200, 0⟩ 0 0).2.1 - (waitConcurrent2 ⟨200, 0⟩ 0 0).1 <
      (⟨200, 0⟩ : RateLimiter).delay := by
  refine ⟨by decide, by decide, by decide⟩

/-- C7 amended: for two consecutive (non-overlapping) completions of `wait()`
on the same instance — the second call starts only after the first completed
and sees the state the first wrote — the completions are separated by at
least `minIntervalMs`, and each completion records itself as the new
last-dispatch time, so `lastRequest` is monotonically non-decreasing.  Under
concurrent invocation the spacing guarantee fails (see the counterexample):
both callers can read `lastRequest` before either writes it. -/
theorem rateLimiter_sequential_spacing (rl : RateLimiter) (s1 s2 : Int)
    (hd : 0 ≤ rl.delay) :
    rl.delay ≤ ((rl.wait s1).2.wait s2).1 - (rl.wait s1).1 ∧
    (rl.wait s1).2.lastRequest = (rl.wait s1).1 ∧
    ((rl.wait s1).2.wait s2).2.lastRequest = ((rl.wait s1).2.wait s2).1 ∧
    rl.lastRequest ≤ (rl.wait s1).2.lastRequest ∧
    (rl.wait s1).2.lastRequest ≤ ((rl.wait s1).2.wait s2).2.lastRequest := by
  have h1 := RateLimiter.wait_fst_ge rl s1
  have h2 := RateLimiter.wait_fst_ge (rl.wait s1).2 s2
  rw [RateLimiter.wait_lastRequest, RateLimiter.wait_delay] at h2
  refine ⟨by omega, rfl, rfl, ?_, ?_⟩
  · rw [RateLimiter.wait_lastRequest]; omega
  · rw [RateLimiter.wait_lastRequest, RateLimiter.wait_lastRequest]; omega

/-- Witness for `rateLimiter_sequential_spacing`: the general-purpose limiter
(`200` ms) with back-to-back calls at t = 0 and t = 200. -/
theorem rateLimiter_sequential_spacing_witness :
    (0:Int) ≤ (⟨200, 0⟩ : RateLimiter).delay ∧
    (⟨200, 0⟩ : RateLimiter).delay ≤
      (((⟨200, 0⟩ : RateLimiter).wait 0).2.wait 200).1 -
        ((⟨200, 0⟩ : RateLimiter).wait 0).1 := by
  exact ⟨by decide, (rateLimiter_sequential_spacing ⟨200, 0⟩ 0 200 (by decide)).1⟩

/-- C6: `retryRequest` with the configured `maxAttempts = 3` and
`baseDelayMs = 2000` on a plain operation: (1) when every invocation fails it
invokes the operation exactly 3 times (three `remote` events), sleeping
2000 ms after the first failure and 4000 ms after the second
(`baseDelayMs * 2 ^ i` for 0-indexed attempt `i`), and propagates the third
failure to the caller; (2) when the first invocation succeeds the result is
returned immediately, with no further invocations and no sleeps; (3) when
the first invocation fails and the second succeeds, exactly two invocations
happen with a single 2000 ms sleep in between. -/
theorem retryRequest_behaviour :
    (∀ (α : Type) (fn : Nat → Except String α) (w : World) (e : Nat → String),
        (∀ i, fn i = .error (e i)) →
        retryRequest (opBody fn) CONFIG.RETRY_ATTEMPTS w =
          ⟨.error (e 2), { w with time := w.time + 2000 + 4000 },
            [.remote "operation", .sleep 2000, .remote "operation", .sleep 4000,
              .remote "operation"]⟩) ∧
    (∀ (α : Type) (fn : Nat → Except String α) (w : World) (a : α),
        fn 0 = .ok a →
        retryRequest (opBody fn) CONFIG.RETRY_ATTEMPTS w =
          ⟨.ok a, w, [.remote "operation"]⟩) ∧
    (∀ (α : Type) (fn : Nat → Except String α) (w : World) (a : α) (e0 : String),
        fn 0 = .error e0 → fn 1 = .ok a →
        retryRequest (opBody fn) CONFIG.RETRY_ATTEMPTS w =
          ⟨.ok a, { w with time := w.time + 2000 },
            [.remote "operation", .sleep 2000, .remote "operation"]⟩) := by
  refine ⟨?_, ?_, ?_⟩
  · intro α fn w e h
    simp [retryRequest, retryRequestGo, opBody, h 0, h 1, h 2, CONFIG.RETRY_ATTEMPTS,
      CONFIG.RETRY_DELAY]
  · intro α fn w a h
    simp [retryRequest, retryRequestGo, opBody, h, CONFIG.RETRY_ATTEMPTS]
  · intro α fn w a e0 h0 h1
    simp [retryRequest, retryRequestGo, opBody, h0, h1, CONFIG.RETRY_ATTEMPTS,
      CONFIG.RETRY_DELAY]

/-- Witness for `retryRequest_behaviour`: an always-failing operation run from
the initial world — three invocations, sleeps of 2000 and 4000 ms, and the
final failure propagated. -/
theorem retryRequest_behaviour_witness :
    retryRequest (opBody fun _ => (.error "fail" : Except String Nat))
        CONFIG.RETRY_ATTEMPTS (World.init 0) =
      ⟨.error "fail", { World.init 0 with time := (World.init 0).time + 2000 + 4000 },
        [.remote "operation", .sleep 2000, .remote "operation", .sleep 4000,
          .remote "operation"]⟩ :=
  retryRequest_behaviour.1 Nat (fun _ => .error "fail") (World.init 0) (fun _ => "fail")
    fun _ => rfl

/-- Each emitted record carries exactly the student's own identity fields,
on both the normal and the fault path. -/
lemma processStudent_key (s : Student) (net : Net) (fault : Option String) (w : World) :
    resKey (processStudent s net fault w).res = stuKey s := by
  cases fault <;> rfl

/-- A chunk's results are the chunk's students, in chunk order. -/
lemma processChunk_keys (net : Net) (fault : Student → Option String) :
    ∀ (chunk : List Student) (w : World),
      ((processChunk chunk net fault w).results).map resKey = chunk.map stuKey := by
  intro chunk
  induction chunk with
  | nil => intro w; rfl
  | cons s rest ih =>
    intro w
    simp [processChunk, processStudent_key, ih]

/-- A batch's results are the batch's students, in batch order. -/
lemma processBatch_keys (net : Net) (fault : Student → Option String) :
    ∀ (n : Nat) (students : List Student), students.length ≤ n → ∀ (w : World),
      ((processBatch students net fault w).results).map resKey = students.map stuKey := by
  intro n
  induction n with
  | zero =>
    intro students hlen w
    have hnil : students = [] := List.eq_nil_of_length_eq_zero (Nat.le_zero.mp hlen)
    subst hnil
    rw [processBatch]
    simp
  | succ n ih =>
    intro students hlen w
    rw [processBatch]
    by_cases hnil : students = []
    · simp [hnil]
    · have hpos : 0 < students.length := List.length_pos.mpr hnil
      simp only [hnil, dif_neg, not_false_iff]
      rw [List.map_append, processChunk_keys,
        ih (students.drop CONFIG.CONCURRENCY) (by simp [CONFIG.CONCURRENCY]; omega),
        ← List.map_append, List.take_append_drop]

/-- The full batch loop's results are the cohort's students, in input order. -/
lemma runScraperBatches_keys (net : Net) (fault : Student → Option String) :
    ∀ (n : Nat) (students : List Student), students.length ≤ n → ∀ (w : World),
      ((runScraperBatches students net fault w).results).map resKey =
        students.map stuKey := by
  intro n
  induction n with
  | zero =>
    intro students hlen w
    have hnil : students = [] := List.eq_nil_of_length_eq_zero (Nat.le_zero.mp hlen)
    subst hnil
    rw [runScraperBatches]
    simp
  | succ n ih =>
    intro students hlen w
    rw [runScraperBatches]
    by_cases hnil : students = []
    · simp [hnil]
    · have hpos : 0 < students.length := List.length_pos.mpr hnil
      simp only [hnil, dif_neg, not_false_iff]
      rw [List.map_append,
        processBatch_keys net fault (students.take CONFIG.BATCH_SIZE).length _ le_rfl,
        ih (students.drop CONFIG.BATCH_SIZE) (by simp [CONFIG.BATCH_SIZE]; omega),
        ← List.map_append, List.take_append_drop]

/-- C1: the batch pipeline (`runScraper`'s batch loop over `processBatch` over
`processStudent`) emits exactly one AggregateResult per input student, and the
emitted identity sequence equals the input sequence — same order, one record
each — for EVERY remote-behaviour oracle `net` and every fault assignment, in
particular no matter which platform adapter calls fail. -/
theorem pipeline_emits_one_result_per_student_in_order (students : List Student)
    (net : Net) (fault : Student → Option String) (w : World) :
    ((runScraperBatches students net fault w).results).map resKey =
      students.map stuKey ∧
    ((processBatch students net fault w).results).map resKey = students.map stuKey ∧
    (runScraperBatches students net fault w).results.length = students.length := by
  refine ⟨runScraperBatches_keys net fault students.length students le_rfl w,
    processBatch_keys net fault students.length students le_rfl w, ?_⟩
  have h := runScraperBatches_keys net fault students.length students le_rfl w
  have := congrArg List.length h
  simpa using this

/-- When every LeetCode remote attempt throws, the adapter's own result is the
propagated error (cache-miss path; the rejection crosses the adapter
boundary). -/
lemma leetcode_exhaustion_propagates (u : String) (net : Net) (w : World) (e : String)
    (hu : u ≠ "") (hmiss : Cache.get w.lcCache w.time (lcKey u) = none)
    (hnet : ∀ i, net.lc u i = .error e) :
    (Adapters.leetcode (some u) net w).res = .error e := by
  simp [Adapters.leetcode, truthyS, hu, hmiss, retryRequest, retryRequestGo, lcClosure,
    hnet 0, hnet 1, hnet 2, CONFIG.RETRY_ATTEMPTS]

/-- An absent/malformed LeetCode payload (the optional chain broken) is
normalized to the zero metrics on the first attempt, not an error. -/
lemma leetcode_malformed_is_zero (u : String) (net : Net) (w : World)
    (hu : u ≠ "") (hmiss : Cache.get w.lcCache w.time (lcKey u) = none)
    (hnet : net.lc u 0 = .ok none) :
    (Adapters.leetcode (some u) net w).res = .ok lcZero := by
  simp [Adapters.leetcode, truthyS, hu, hmiss, retryRequest, retryRequestGo, lcClosure,
    hnet, CONFIG.RETRY_ATTEMPTS]

/-- When every GitHub user-lookup attempt throws (the outer catch re-throws),
the GitHub adapter's own result is the propagated error. -/
lemma github_exhaustion_propagates (u : String) (net : Net) (w : World) (e : String)
    (hu : u ≠ "") (hmiss : Cache.get w.ghCache w.time (ghKey u) = none)
    (hnet : ∀ i, net.ghUser u i = .error e) :
    (Adapters.github (some u) net w).res = .error e := by
  simp [Adapters.github, truthyS, hu, hmiss, retryRequest, retryRequestGo, ghClosure,
    hnet 0, hnet 1, hnet 2, CONFIG.RETRY_ATTEMPTS]

/-- When every Codeforces attempt throws, the Codeforces adapter's own result
is the propagated error. -/
lemma codeforces_exhaustion_propagates (u : String) (net : Net) (w : World) (e : String)
    (hu : u ≠ "") (hmiss : Cache.get w.cfCache w.time (cfKey u) = none)
    (hnet : ∀ i, net.cf u i = .error e) :
    (Adapters.codeforces (some u) net w).res = .error e := by
  simp [Adapters.codeforces, truthyS, hu, hmiss, retryRequest, retryRequestGo, cfClosure,
    hnet 0, hnet 1, hnet 2, CONFIG.RETRY_ATTEMPTS]

/-- When every AtCoder attempt throws, the AtCoder adapter's own result is
the propagated error. -/
lemma atcoder_exhaustion_propagates (u : String) (net : Net) (w : World) (e : String)
    (hu : u ≠ "") (hmiss : Cache.get w.acCache w.time (acKey u) = none)
    (hnet : ∀ i, net.ac u i = .error e) :
    (Adapters.atcoder (some u) net w).res = .error e := by
  simp [Adapters.atcoder, truthyS, hu, hmiss, retryRequest, retryRequestGo, acClosure,
    hnet 0, hnet 1, hnet 2, CONFIG.RETRY_ATTEMPTS]

/-- A Codeforces response with a non-`OK` API status is normalized to the
zero metrics on the first attempt, not retried and not an error. -/
lemma codeforces_non_ok_is_zero (u : String) (net : Net) (w : World) (resp : CFResponse)
    (hu : u ≠ "") (hmiss : Cache.get w.cfCache w.time (cfKey u) = none)
    (hnet : net.cf u 0 = .ok resp) (hst : resp.status ≠ "OK") :
    (Adapters.codeforces (some u) net w).res = .ok cfZero := by
  have hb : (resp.status == "OK") = false := by simp [hst]
  simp [Adapters.codeforces, truthyS, hu, hmiss, retryRequest, retryRequestGo, cfClosure,
    hnet, hb, CONFIG.RETRY_ATTEMPTS]

/-- An AtCoder response without a `count` field is normalized to the zero
metrics (`response.data?.count || 0`) on the first attempt, not an error. -/
lemma atcoder_absent_count_is_zero (u : String) (net : Net) (w : World)
    (hu : u ≠ "") (hmiss : Cache.get w.acCache w.time (acKey u) = none)
    (hnet : net.ac u 0 = .ok none) :
    (Adapters.atcoder (some u) net w).res = .ok acZero := by
  simp [Adapters.atcoder, truthyS, hu, hmiss, retryRequest, retryRequestGo, acClosure,
    hnet, CONFIG.RETRY_ATTEMPTS, acZero]

/-- A failed GitHub merged-PR search zeroes only the dependent count: with a
successful user lookup, the adapter returns the real repo count and 0 merged
PRs, not an error. -/
lemma github_search_failure_zero_prs (u : String) (net : Net) (w : World) (repos : Nat)
    (e : String) (hu : u ≠ "") (hmiss : Cache.get w.ghCache w.time (ghKey u) = none)
    (hU : net.ghUser u 0 = .ok repos) (hS : net.ghSearch u 0 = .error e) :
    (Adapters.github (some u) net w).res = .ok ⟨repos, 0⟩ := by
  simp [Adapters.github, truthyS, hu, hmiss, retryRequest, retryRequestGo, ghClosure,
    hU, hS, CONFIG.RETRY_ATTEMPTS]

/-- The SkillRack adapter never propagates a network failure: when every
profile fetch throws, it returns the zero metrics for every identity. -/
lemma skillrack_never_throws (sd : Option SkillrackId) (net : Net) (w : World) (msg : String)
    (hnet : ∀ url, net.sr url = .error msg) :
    (Adapters.skillrack sd net w).res = srZero := by
  rcases sd with _ | d
  · rfl
  · rcases d with s | ⟨u, i, k⟩
    · rfl
    · simp only [Adapters.skillrack]
      split
      · simp only [scrapeSkillRack]
        split
        · rw [hnet]
        · rfl
      · rfl

/-- A frame rule for the retry loop: any view of the world that every body
attempt and every clock advance preserve is preserved by the whole loop. -/
lemma retryRequestGo_preserves {α β : Type} (F : World → β)
    (body : Nat → World → StepR (Except String α))
    (hbody : ∀ i w, F (body i w).w = F w)
    (htime : ∀ (w : World) (t : Int), F { w with time := t } = F w) :
    ∀ (i remaining : Nat) (w : World), F (retryRequestGo body i remaining w).w = F w := by
  intro i remaining
  induction remaining generalizing i with
  | zero =>
    intro w
    unfold retryRequestGo
    rcases h : (body i w).res with e | a <;> simp [h, hbody]
  | succ r ih =>
    intro w
    unfold retryRequestGo
    rcases h : (body i w).res with e | a
    · simp only [h]
      rw [ih (i + 1), htime, hbody]
    · simp [h, hbody]

/-- Lookups in an entry-free key never hit, whatever the clock says. -/
lemma Cache.get_none_of_absent {α : Type} (c : CacheMap α) (now : Int) (key : String)
    (h : c key = none) : Cache.get c now key = none := by
  simp [Cache.get, h]

/-- The LeetCode adapter touches no cache slice but its own. -/
lemma leetcode_preserves_other_caches (username : Option String) (net : Net) (w : World) :
    (Adapters.leetcode username net w).w.ghCache = w.ghCache ∧
    (Adapters.leetcode username net w).w.cfCache = w.cfCache ∧
    (Adapters.leetcode username net w).w.acCache = w.acCache := by
  have hbody : ∀ i w',
      ((fun wx : World => (wx.ghCache, wx.cfCache, wx.acCache))
          (lcClosure net (username.getD "") i w').w) =
        (fun wx : World => (wx.ghCache, wx.cfCache, wx.acCache)) w' := by
    intro i w'
    unfold lcClosure
    rcases net.lc (username.getD "") i with e | od
    · rfl
    · rcases od with _ | d <;> rfl
  unfold Adapters.leetcode
  split
  · dsimp only
    split
    · exact ⟨rfl, rfl, rfl⟩
    · have h := retryRequestGo_preserves
        (fun wx : World => (wx.ghCache, wx.cfCache, wx.acCache))
        (lcClosure net (username.getD "")) hbody (fun _ _ => rfl) 0
        (CONFIG.RETRY_ATTEMPTS - 1)
        { w with
            time := (RateLimiter.wait w.leetcodeLimiter w.time).1
            leetcodeLimiter := (RateLimiter.wait w.leetcodeLimiter w.time).2 }
      simp only [retryRequest]
      exact ⟨congrArg (fun p => p.1) h, congrArg (fun p => p.2.1) h,
        congrArg (fun p => p.2.2) h⟩
  · exact ⟨rfl, rfl, rfl⟩

/-- The GitHub adapter touches no cache slice but its own. -/
lemma github_preserves_other_caches (username : Option String) (net : Net) (w : World) :
    (Adapters.github username net w).w.lcCache = w.lcCache ∧
    (Adapters.github username net w).w.cfCache = w.cfCache ∧
    (Adapters.github username net w).w.acCache = w.acCache := by
  have hbody : ∀ i w',
      ((fun wx : World => (wx.lcCache, wx.cfCache, wx.acCache))
          (ghClosure net (username.getD "") i w').w) =
        (fun wx : World => (wx.lcCache, wx.cfCache, wx.acCache)) w' := by
    intro i w'
    unfold ghClosure
    rcases net.ghUser (username.getD "") i with e | repos
    · rfl
    · rcases net.ghSearch (username.getD "") i with e2 | n <;> rfl
  unfold Adapters.github
  split
  · dsimp only
    split
    · exact ⟨rfl, rfl, rfl⟩
    · have h := retryRequestGo_preserves
        (fun wx : World => (wx.lcCache, wx.cfCache, wx.acCache))
        (ghClosure net (username.getD "")) hbody (fun _ _ => rfl) 0
        (CONFIG.RETRY_ATTEMPTS - 1)
        { w with
            time := (RateLimiter.wait w.githubUserLimiter w.time).1
            githubUserLimiter := (RateLimiter.wait w.githubUserLimiter w.time).2 }
      simp only [retryRequest]
      exact ⟨congrArg (fun p => p.1) h, congrArg (fun p => p.2.1) h,
        congrArg (fun p => p.2.2) h⟩
  · exact ⟨rfl, rfl, rfl⟩

/-- The Codeforces adapter touches no cache slice but its own. -/
lemma codeforces_preserves_other_caches (username : Option String) (net : Net) (w : World) :
    (Adapters.codeforces username net w).w.lcCache = w.lcCache ∧
    (Adapters.codeforces username net w).w.ghCache = w.ghCache ∧
    (Adapters.codeforces username net w).w.acCache = w.acCache := by
  have hbody : ∀ i w',
      ((fun wx : World => (wx.lcCache, wx.ghCache, wx.acCache))
          (cfClosure net (username.getD "") i w').w) =
        (fun wx : World => (wx.lcCache, wx.ghCache, wx.acCache)) w' := by
    intro i w'
    unfold cfClosure
    rcases net.cf (username.getD "") i with e | resp
    · rfl
    · dsimp only
      split <;> rfl
  unfold Adapters.codeforces
  split
  · dsimp only
    split
    · exact ⟨rfl, rfl, rfl⟩
    · have h := retryRequestGo_preserves
        (fun wx : World => (wx.lcCache, wx.ghCache, wx.acCache))
        (cfClosure net (username.getD "")) hbody (fun _ _ => rfl) 0
        (CONFIG.RETRY_ATTEMPTS - 1)
        { w with
            time := (RateLimiter.wait w.codeforcesLimiter w.time).1
            codeforcesLimiter := (RateLimiter.wait w.codeforcesLimiter w.time).2 }
      simp only [retryRequest]
      exact ⟨congrArg (fun p => p.1) h, congrArg (fun p => p.2.1) h,
        congrArg (fun p => p.2.2) h⟩
  · exact ⟨rfl, rfl, rfl⟩

/-- Zero substitution for rejected adapter calls happens in `processStudent`
(via `Promise.allSettled`), not inside the adapters: with all four retried
platform fetches rejecting after retry exhaustion (their cache slices holding
no entry for the handles), the emitted record carries the zero metrics for
each of leetcode, github, codeforces and atcoder, and no error annotation. -/
lemma processStudent_substitutes_zero_for_rejection (s : Student) (net : Net) (w : World)
    (u1 u2 u3 u4 : String) (e : String)
    (hh1 : s.handles.bind (·.leetcode) = some u1) (hu1 : u1 ≠ "")
    (hh2 : s.handles.bind (·.github) = some u2) (hu2 : u2 ≠ "")
    (hh3 : s.handles.bind (·.codeforces) = some u3) (hu3 : u3 ≠ "")
    (hh4 : s.handles.bind (·.atcoder) = some u4) (hu4 : u4 ≠ "")
    (m1 : w.lcCache (lcKey u1) = none) (m2 : w.ghCache (ghKey u2) = none)
    (m3 : w.cfCache (cfKey u3) = none) (m4 : w.acCache (acKey u4) = none)
    (n1 : ∀ i, net.lc u1 i = .error e) (n2 : ∀ i, net.ghUser u2 i = .error e)
    (n3 : ∀ i, net.cf u3 i = .error e) (n4 : ∀ i, net.ac u4 i = .error e) :
    (processStudent s net none w).res.data.leetcode = lcZero ∧
    (processStudent s net none w).res.data.github = ghZero ∧
    (processStudent s net none w).res.data.codeforces = cfZero ∧
    (processStudent s net none w).res.data.atcoder = acZero ∧
    (processStudent s net none w).res.error = none := by
  have h1 : (Adapters.leetcode (s.handles.bind (·.leetcode)) net w).res = .error e := by
    rw [hh1]
    exact leetcode_exhaustion_propagates u1 net w e hu1
      (Cache.get_none_of_absent _ _ _ m1) n1
  have w1gh := (leetcode_preserves_other_caches (s.handles.bind (·.leetcode)) net w).1
  have w1cf := (leetcode_preserves_other_caches (s.handles.bind (·.leetcode)) net w).2.1
  have w1ac := (leetcode_preserves_other_caches (s.handles.bind (·.leetcode)) net w).2.2
  set w1 := (Adapters.leetcode (s.handles.bind (·.leetcode)) net w).w with hw1
  have h2 : (Adapters.github (s.handles.bind (·.github)) net w1).res = .error e := by
    rw [hh2]
    refine github_exhaustion_propagates u2 net w1 e hu2 ?_ n2
    exact Cache.get_none_of_absent _ _ _ (by rw [w1gh]; exact m2)
  have w2cf := (github_preserves_other_caches (s.handles.bind (·.github)) net w1).2.1
  have w2ac := (github_preserves_other_caches (s.handles.bind (·.github)) net w1).2.2
  set w2 := (Adapters.github (s.handles.bind (·.github)) net w1).w with hw2
  have h3 : (Adapters.codeforces (s.handles.bind (·.codeforces)) net w2).res = .error e := by
    rw [hh3]
    refine codeforces_exhaustion_propagates u3 net w2 e hu3 ?_ n3
    exact Cache.get_none_of_absent _ _ _ (by rw [w2cf, w1cf]; exact m3)
  have w3ac := (codeforces_preserves_other_caches (s.handles.bind (·.codeforces)) net w2).2.2
  set w3 := (Adapters.codeforces (s.handles.bind (·.codeforces)) net w2).w with hw3
  have h4 : (Adapters.atcoder (s.handles.bind (·.atcoder)) net w3).res = .error e := by
    rw [hh4]
    refine atcoder_exhaustion_propagates u4 net w3 e hu4 ?_ n4
    exact Cache.get_none_of_absent _ _ _ (by rw [w3ac, w2ac, w1ac]; exact m4)
  refine ⟨?_, ?_, ?_, ?_, rfl⟩
  · simp only [processStudent, h1]
  · simp only [processStudent, ← hw1, h2]
  · simp only [processStudent, ← hw1, ← hw2, h3]
  · simp only [processStudent, ← hw1, ← hw2, ← hw3, h4]

/-- C2 counterexample: the LeetCode adapter variant, on the concrete identity
"alice" with every remote attempt throwing "network down", lets the failure
cross its boundary — its fetch resolves to the propagated error, not to the
platform's zero-valued metrics. -/
theorem adapter_propagates_after_exhaustion_cex :
    (Adapters.leetcode (some "alice") netFail (World.init 0)).res =
      .error "network down" := rfl

/-- C2 amended: adapters return the zero-valued metrics for a missing
identity and for malformed/absent data — a LeetCode payload with the optional
chain broken, a Codeforces non-OK API status, an AtCoder response without a
count, and a failed GitHub merged-PR search zeroing only the dependent
count — and the SkillRack adapter never throws; but on retry exhaustion the
leetcode, github, codeforces and atcoder adapters DO propagate the last
failure past their own boundary — the zero substitution for those failures
happens in `processStudent` via `Promise.allSettled`, so the error stops
there rather than inside the adapter. -/
theorem adapter_failure_policy :
    (∀ (net : Net) (w : World),
        Adapters.leetcode none net w = ⟨.ok lcZero, w, []⟩ ∧
        Adapters.github none net w = ⟨.ok ghZero, w, []⟩ ∧
        Adapters.codeforces none net w = ⟨.ok cfZero, w, []⟩ ∧
        Adapters.atcoder none net w = ⟨.ok acZero, w, []⟩ ∧
        Adapters.skillrack none net w = ⟨srZero, w, []⟩) ∧
    (∀ (u : String) (net : Net) (w : World), u ≠ "" →
        Cache.get w.lcCache w.time (lcKey u) = none → net.lc u 0 = .ok none →
        (Adapters.leetcode (some u) net w).res = .ok lcZero) ∧
    (∀ (u : String) (net : Net) (w : World) (resp : CFResponse), u ≠ "" →
        Cache.get w.cfCache w.time (cfKey u) = none → net.cf u 0 = .ok resp →
        resp.status ≠ "OK" →
        (Adapters.codeforces (some u) net w).res = .ok cfZero) ∧
    (∀ (u : String) (net : Net) (w : World), u ≠ "" →
        Cache.get w.acCache w.time (acKey u) = none → net.ac u 0 = .ok none →
        (Adapters.atcoder (some u) net w).res = .ok acZero) ∧
    (∀ (u : String) (net : Net) (w : World) (repos : Nat) (e : String), u ≠ "" →
        Cache.get w.ghCache w.time (ghKey u) = none → net.ghUser u 0 = .ok repos →
        net.ghSearch u 0 = .error e →
        (Adapters.github (some u) net w).res = .ok ⟨repos, 0⟩) ∧
    (∀ (sd : Option SkillrackId) (net : Net) (w : World) (msg : String),
        (∀ url, net.sr url = .error msg) →
        (Adapters.skillrack sd net w).res = srZero) ∧
    (∀ (u : String) (net : Net) (w : World) (e : String), u ≠ "" →
        Cache.get w.lcCache w.time (lcKey u) = none → (∀ i, net.lc u i = .error e) →
        (Adapters.leetcode (some u) net w).res = .error e) ∧
    (∀ (u : String) (net : Net) (w : World) (e : String), u ≠ "" →
        Cache.get w.ghCache w.time (ghKey u) = none → (∀ i, net.ghUser u i = .error e) →
        (Adapters.github (some u) net w).res = .error e) ∧
    (∀ (u : String) (net : Net) (w : World) (e : String), u ≠ "" →
        Cache.get w.cfCache w.time (cfKey u) = none → (∀ i, net.cf u i = .error e) →
        (Adapters.codeforces (some u) net w).res = .error e) ∧
    (∀ (u : String) (net : Net) (w : World) (e : String), u ≠ "" →
        Cache.get w.acCache w.time (acKey u) = none → (∀ i, net.ac u i = .error e) →
        (Adapters.atcoder (some u) net w).res = .error e) ∧
    (∀ (s : Student) (net : Net) (w : World) (u1 u2 u3 u4 e : String),
        s.handles.bind (·.leetcode) = some u1 → u1 ≠ "" →
        s.handles.bind (·.github) = some u2 → u2 ≠ "" →
        s.handles.bind (·.codeforces) = some u3 → u3 ≠ "" →
        s.handles.bind (·.atcoder) = some u4 → u4 ≠ "" →
        w.lcCache (lcKey u1) = none → w.ghCache (ghKey u2) = none →
        w.cfCache (cfKey u3) = none → w.acCache (acKey u4) = none →
        (∀ i, net.lc u1 i = .error e) → (∀ i, net.ghUser u2 i = .error e) →
        (∀ i, net.cf u3 i = .error e) → (∀ i, net.ac u4 i = .error e) →
        (processStudent s net none w).res.data.leetcode = lcZero ∧
        (processStudent s net none w).res.data.github = ghZero ∧
        (processStudent s net none w).res.data.codeforces = cfZero ∧
        (processStudent s net none w).res.data.atcoder = acZero ∧
        (processStudent s net none w).res.error = none) := by
  refine ⟨?_, leetcode_malformed_is_zero, codeforces_non_ok_is_zero,
    atcoder_absent_count_is_zero, github_search_failure_zero_prs,
    skillrack_never_throws, leetcode_exhaustion_propagates,
    github_exhaustion_propagates, codeforces_exhaustion_propagates,
    atcoder_exhaustion_propagates, ?_⟩
  · intro net w
    exact ⟨rfl, rfl, rfl, rfl, rfl⟩
  · intro s net w u1 u2 u3 u4 e hh1 hu1 hh2 hu2 hh3 hu3 hh4 hu4 m1 m2 m3 m4 n1 n2 n3 n4
    exact processStudent_substitutes_zero_for_rejection s net w u1 u2 u3 u4 e
      hh1 hu1 hh2 hu2 hh3 hu3 hh4 hu4 m1 m2 m3 m4 n1 n2 n3 n4

/-- Witness for `adapter_failure_policy`: every conjunct at concrete inputs —
missing identities; an absent LeetCode payload, a FAILED Codeforces status,
an AtCoder response without a count, and a GitHub user lookup whose PR search
throws; a network-down SkillRack fetch; retry exhaustion on each of the four
retried adapters; and the all-slot zero substitution inside `processStudent`
for a student carrying all four handles. -/
theorem adapter_failure_policy_witness :
    Adapters.leetcode none netFail (World.init 0) =
      ⟨.ok lcZero, World.init 0, []⟩ ∧
    (Adapters.leetcode (some "mallory") netLcNone (World.init 0)).res = .ok lcZero ∧
    (Adapters.codeforces (some "carl") netCfBad (World.init 0)).res = .ok cfZero ∧
    (Adapters.atcoder (some "dave") netAcNone (World.init 0)).res = .ok acZero ∧
    (Adapters.github (some "bob") netGhPartial (World.init 0)).res = .ok ⟨5, 0⟩ ∧
    (Adapters.skillrack (some srIdObj) netFail (World.init 0)).res = srZero ∧
    (Adapters.leetcode (some "alice") netFail (World.init 0)).res =
      .error "network down" ∧
    (Adapters.github (some "bob") netFail (World.init 0)).res =
      .error "network down" ∧
    (Adapters.codeforces (some "carl") netFail (World.init 0)).res =
      .error "network down" ∧
    (Adapters.atcoder (some "dave") netFail (World.init 0)).res =
      .error "network down" ∧
    (processStudent allHandlesStudent netFail none (World.init 0)).res.data.leetcode =
      lcZero ∧
    (processStudent allHandlesStudent netFail none (World.init 0)).res.data.github =
      ghZero ∧
    (processStudent allHandlesStudent netFail none (World.init 0)).res.data.codeforces =
      cfZero ∧
    (processStudent allHandlesStudent netFail none (World.init 0)).res.data.atcoder =
      acZero := by
  obtain ⟨hsub1, hsub2, hsub3, hsub4, -⟩ :=
    adapter_failure_policy.2.2.2.2.2.2.2.2.2.2 allHandlesStudent netFail (World.init 0)
      "alice" "bob" "carl" "dave" "network down" rfl (by decide) rfl (by decide) rfl
      (by decide) rfl (by decide) rfl rfl rfl rfl (fun _ => rfl) (fun _ => rfl)
      (fun _ => rfl) (fun _ => rfl)
  exact ⟨(adapter_failure_policy.1 netFail (World.init 0)).1,
    adapter_failure_policy.2.1 "mallory" netLcNone (World.init 0) (by decide)
      (by decide) rfl,
    adapter_failure_policy.2.2.1 "carl" netCfBad (World.init 0) ⟨"FAILED", []⟩
      (by decide) (by decide) rfl (by decide),
    adapter_failure_policy.2.2.2.1 "dave" netAcNone (World.init 0) (by decide)
      (by decide) rfl,
    adapter_failure_policy.2.2.2.2.1 "bob" netGhPartial (World.init 0) 5 "network down"
      (by decide) (by decide) rfl rfl,
    adapter_failure_policy.2.2.2.2.2.1 (some srIdObj) netFail (World.init 0)
      "network down" (fun _ => rfl),
    adapter_failure_policy.2.2.2.2.2.2.1 "alice" netFail (World.init 0) "network down"
      (by decide) (by decide) (fun _ => rfl),
    adapter_failure_policy.2.2.2.2.2.2.2.1 "bob" netFail (World.init 0) "network down"
      (by decide) (by decide) (fun _ => rfl),
    adapter_failure_policy.2.2.2.2.2.2.2.2.1 "carl" netFail (World.init 0) "network down"
      (by decide) (by decide) (fun _ => rfl),
    adapter_failure_policy.2.2.2.2.2.2.2.2.2.1 "dave" netFail (World.init 0)
      "network down" (by decide) (by decide) (fun _ => rfl),
    hsub1, hsub2, hsub3, hsub4⟩

/-- Cache hit short-circuit of the LeetCode adapter: the cached value is
returned as-is, the world is untouched, and the only event is the cache
read — no rate wait, no remote call. -/
lemma leetcode_cache_hit (u : String) (net : Net) (w : World) (m : LeetcodeMetrics)
    (hu : u ≠ "") (hhit : Cache.get w.lcCache w.time (lcKey u) = some m) :
    Adapters.leetcode (some u) net w = ⟨.ok m, w, [.cacheGet (lcKey u)]⟩ := by
  simp [Adapters.leetcode, truthyS, hu, hhit]

/-- Cache miss with a parseable first-attempt response: the LeetCode adapter
performs the rate wait and one remote call, writes the normalized metrics
into the cache (timestamped with the post-wait clock) before returning
them. -/
lemma leetcode_miss_fetch_writes_cache (u : String) (net : Net) (w : World)
    (d : List AcSubmission) (hu : u ≠ "")
    (hmiss : Cache.get w.lcCache w.time (lcKey u) = none)
    (hnet : net.lc u 0 = .ok (some d)) :
    Adapters.leetcode (some u) net w =
      ⟨.ok (lcParse d),
        { w with
            time := (RateLimiter.wait w.leetcodeLimiter w.time).1
            leetcodeLimiter := (RateLimiter.wait w.leetcodeLimiter w.time).2
            lcCache := Cache.set w.lcCache (RateLimiter.wait w.leetcodeLimiter w.time).1
              (lcKey u) (lcParse d) },
        [.cacheGet (lcKey u), .rateWait "leetcode", .remote "leetcode",
          .cacheSet (lcKey u)]⟩ := by
  simp [Adapters.leetcode, truthyS, hu, hmiss, retryRequest, retryRequestGo, lcClosure,
    hnet, CONFIG.RETRY_ATTEMPTS]

/-- A successful LeetCode fetch whose payload is absent writes NOTHING into
the cache: the adapter returns the zero metrics and the cache slice of the
final world is exactly the input's. -/
lemma leetcode_absent_payload_no_cache_write (u : String) (net : Net) (w : World)
    (hu : u ≠ "") (hmiss : Cache.get w.lcCache w.time (lcKey u) = none)
    (hnet : net.lc u 0 = .ok none) :
    Adapters.leetcode (some u) net w =
      ⟨.ok lcZero,
        { w with
            time := (RateLimiter.wait w.leetcodeLimiter w.time).1
            leetcodeLimiter := (RateLimiter.wait w.leetcodeLimiter w.time).2 },
        [.cacheGet (lcKey u), .rateWait "leetcode", .remote "leetcode"]⟩ := by
  simp [Adapters.leetcode, truthyS, hu, hmiss, retryRequest, retryRequestGo, lcClosure,
    hnet, CONFIG.RETRY_ATTEMPTS]

/-- Cache hit short-circuit of the GitHub adapter. -/
lemma github_cache_hit (u : String) (net : Net) (w : World) (m : GithubMetrics)
    (hu : u ≠ "") (hhit : Cache.get w.ghCache w.time (ghKey u) = some m) :
    Adapters.github (some u) net w = ⟨.ok m, w, [.cacheGet (ghKey u)]⟩ := by
  simp [Adapters.github, truthyS, hu, hhit]

/-- Cache miss with both GitHub calls succeeding on the first attempt: the
adapter waits on both limiters, performs the two remote calls, and writes
`{ repos, mergedPRs }` into the cache (timestamped after the second wait)
before returning it. -/
lemma github_miss_fetch_writes_cache (u : String) (net : Net) (w : World)
    (repos prs : Nat) (hu : u ≠ "")
    (hmiss : Cache.get w.ghCache w.time (ghKey u) = none)
    (hU : net.ghUser u 0 = .ok repos) (hS : net.ghSearch u 0 = .ok prs) :
    Adapters.github (some u) net w =
      ⟨.ok ⟨repos, prs⟩,
        { w with
            time := (RateLimiter.wait w.githubSearchLimiter
              (RateLimiter.wait w.githubUserLimiter w.time).1).1
            githubUserLimiter := (RateLimiter.wait w.githubUserLimiter w.time).2
            githubSearchLimiter := (RateLimiter.wait w.githubSearchLimiter
              (RateLimiter.wait w.githubUserLimiter w.time).1).2
            ghCache := Cache.set w.ghCache
              (RateLimiter.wait w.githubSearchLimiter
                (RateLimiter.wait w.githubUserLimiter w.time).1).1
              (ghKey u) ⟨repos, prs⟩ },
        [.cacheGet (ghKey u), .rateWait "githubUser", .remote "githubUser",
          .rateWait "githubSearch", .remote "githubSearch", .cacheSet (ghKey u)]⟩ := by
  simp [Adapters.github, truthyS, hu, hmiss, retryRequest, retryRequestGo, ghClosure,
    hU, hS, CONFIG.RETRY_ATTEMPTS]

/-- Cache hit short-circuit of the Codeforces adapter. -/
lemma codeforces_cache_hit (u : String) (net : Net) (w : World) (m : CFMetrics)
    (hu : u ≠ "") (hhit : Cache.get w.cfCache w.time (cfKey u) = some m) :
    Adapters.codeforces (some u) net w = ⟨.ok m, w, [.cacheGet (cfKey u)]⟩ := by
  simp [Adapters.codeforces, truthyS, hu, hhit]

/-- Cache miss with an `OK`-status Codeforces response on the first attempt:
the adapter writes the distinct solved count into the cache (timestamped at
the post-wait clock) before returning it. -/
lemma codeforces_miss_fetch_writes_cache (u : String) (net : Net) (w : World)
    (resp : CFResponse) (hu : u ≠ "")
    (hmiss : Cache.get w.cfCache w.time (cfKey u) = none)
    (hnet : net.cf u 0 = .ok resp) (hst : resp.status = "OK") :
    Adapters.codeforces (some u) net w =
      ⟨.ok ⟨cfSolvedCount resp.result⟩,
        { w with
            time := (RateLimiter.wait w.codeforcesLimiter w.time).1
            codeforcesLimiter := (RateLimiter.wait w.codeforcesLimiter w.time).2
            cfCache := Cache.set w.cfCache (RateLimiter.wait w.codeforcesLimiter w.time).1
              (cfKey u) ⟨cfSolvedCount resp.result⟩ },
        [.cacheGet (cfKey u), .rateWait "codeforces", .remote "codeforces",
          .cacheSet (cfKey u)]⟩ := by
  simp [Adapters.codeforces, truthyS, hu, hmiss, retryRequest, retryRequestGo, cfClosure,
    hnet, hst, CONFIG.RETRY_ATTEMPTS]

/-- A successful Codeforces fetch whose API status is not `OK` writes NOTHING
into the cache: the adapter returns the zero metrics and the cache slice of
the final world is exactly the input's. -/
lemma codeforces_non_ok_no_cache_write (u : String) (net : Net) (w : World)
    (resp : CFResponse) (hu : u ≠ "")
    (hmiss : Cache.get w.cfCache w.time (cfKey u) = none)
    (hnet : net.cf u 0 = .ok resp) (hst : resp.status ≠ "OK") :
    Adapters.codeforces (some u) net w =
      ⟨.ok cfZero,
        { w with
            time := (RateLimiter.wait w.codeforcesLimiter w.time).1
            codeforcesLimiter := (RateLimiter.wait w.codeforcesLimiter w.time).2 },
        [.cacheGet (cfKey u), .rateWait "codeforces", .remote "codeforces"]⟩ := by
  have hb : (resp.status == "OK") = false := by simp [hst]
  simp [Adapters.codeforces, truthyS, hu, hmiss, retryRequest, retryRequestGo, cfClosure,
    hnet, hb, CONFIG.RETRY_ATTEMPTS]

/-- Cache hit short-circuit of the AtCoder adapter. -/
lemma atcoder_cache_hit (u : String) (net : Net) (w : World) (m : AtcoderMetrics)
    (hu : u ≠ "") (hhit : Cache.get w.acCache w.time (acKey u) = some m) :
    Adapters.atcoder (some u) net w = ⟨.ok m, w, [.cacheGet (acKey u)]⟩ := by
  simp [Adapters.atcoder, truthyS, hu, hhit]

/-- Cache miss with a successful first-attempt AtCoder response: the adapter
writes `{ solved: count || 0 }` into the cache (timestamped at the post-wait
clock) before returning it. -/
lemma atcoder_miss_fetch_writes_cache (u : String) (net : Net) (w : World)
    (cnt : Option Nat) (hu : u ≠ "")
    (hmiss : Cache.get w.acCache w.time (acKey u) = none)
    (hnet : net.ac u 0 = .ok cnt) :
    Adapters.atcoder (some u) net w =
      ⟨.ok ⟨cnt.getD 0⟩,
        { w with
            time := (RateLimiter.wait w.generalLimiter w.time).1
            generalLimiter := (RateLimiter.wait w.generalLimiter w.time).2
            acCache := Cache.set w.acCache (RateLimiter.wait w.generalLimiter w.time).1
              (acKey u) ⟨cnt.getD 0⟩ },
        [.cacheGet (acKey u), .rateWait "general", .remote "atcoder",
          .cacheSet (acKey u)]⟩ := by
  simp [Adapters.atcoder, truthyS, hu, hmiss, retryRequest, retryRequestGo, acClosure,
    hnet, CONFIG.RETRY_ATTEMPTS]

/-- `scrapeSkillRack` touches no cache slice and emits no cache events. -/
lemma scrapeSkillRack_no_cache (sd : Option SkillrackId) (net : Net) (w : World) :
    ((scrapeSkillRack sd net w).w.lcCache = w.lcCache ∧
      (scrapeSkillRack sd net w).w.ghCache = w.ghCache ∧
      (scrapeSkillRack sd net w).w.cfCache = w.cfCache ∧
      (scrapeSkillRack sd net w).w.acCache = w.acCache) ∧
    ∀ k, Ev.cacheGet k ∉ (scrapeSkillRack sd net w).ev ∧
      Ev.cacheSet k ∉ (scrapeSkillRack sd net w).ev := by
  unfold scrapeSkillRack
  rcases sd with _ | d
  · simp
  · dsimp only
    split
    · split
      · simp
      · split <;> simp
    · simp

/-- The SkillRack adapter performs no cache access at all: every cache slice
of the world is untouched and the event trace contains no cache read or
write, whatever the identity, oracle or world. -/
lemma skillrack_no_cache_access (sd : Option SkillrackId) (net : Net) (w : World) :
    ((Adapters.skillrack sd net w).w.lcCache = w.lcCache ∧
      (Adapters.skillrack sd net w).w.ghCache = w.ghCache ∧
      (Adapters.skillrack sd net w).w.cfCache = w.cfCache ∧
      (Adapters.skillrack sd net w).w.acCache = w.acCache) ∧
    ∀ k, Ev.cacheGet k ∉ (Adapters.skillrack sd net w).ev ∧
      Ev.cacheSet k ∉ (Adapters.skillrack sd net w).ev := by
  rcases sd with _ | d
  · exact ⟨⟨rfl, rfl, rfl, rfl⟩, fun k => ⟨by simp [Adapters.skillrack], by simp [Adapters.skillrack]⟩⟩
  · rcases d with s | ⟨u, i, k⟩
    · exact ⟨⟨rfl, rfl, rfl, rfl⟩, fun k => ⟨by simp [Adapters.skillrack], by simp [Adapters.skillrack]⟩⟩
    · by_cases hik : (truthyS i && truthyS k) = true
      · have : Adapters.skillrack (some (.inr (u, i, k))) net w =
            scrapeSkillRack (some (.inr (u, i, k))) net w := by
          simp [Adapters.skillrack, hik]
        rw [this]
        exact scrapeSkillRack_no_cache (some (.inr (u, i, k))) net w
      · have : Adapters.skillrack (some (.inr (u, i, k))) net w = ⟨srZero, w, []⟩ := by
          simp [Adapters.skillrack, hik]
        rw [this]
        exact ⟨⟨rfl, rfl, rfl, rfl⟩, fun k => ⟨by simp, by simp⟩⟩

set_option maxRecDepth 100000 in
/-- C4 counterexample: the SkillRack adapter variant does NOT follow the cache
protocol.  With the mapped identity `{ id: "123", key: "k1" }` and a fetch
that succeeds (a valid page from which 7 solved problems are extracted), the
first fetch performs a remote call without ever consulting or writing the
cache, and a second fetch of the same identity immediately afterwards — well
within the 24h TTL — performs a fresh remote call again instead of returning
a cached value. -/
theorem skillrack_not_cached_cex :
    (Adapters.skillrack (some srIdObj) netSR (World.init 0)).res.solved = 7 ∧
    (Adapters.skillrack (some srIdObj) netSR (World.init 0)).ev =
      [.rateWait "skillrack", .remote (srMappedUrl "123" "k1")] ∧
    (Adapters.skillrack (some srIdObj) netSR
        (Adapters.skillrack (some srIdObj) netSR (World.init 0)).w).ev =
      [.rateWait "skillrack", .remote (srMappedUrl "123" "k1")] := by
  refine ⟨rfl, rfl, rfl⟩

/-- C4 amended: the cache protocol holds for every cache-using adapter
variant — leetcode, github, codeforces and atcoder — but NOT for skillrack:
each of the four (1) first checks the cache under its `platform+identity` key
and short-circuits on a hit with no remote call; (2) on a miss, a successful
fetch with parseable data writes the normalized metrics into the cache before
returning them (codeforces skips the write when the API status is not `OK`,
and leetcode when the payload is absent — those fetches return zeros and
leave the cache untouched); (3) hence a second fetch of the same identity
within the 24h TTL is served from the cache with only a cache read — no new
remote call, whatever the network would answer; while (4) the skillrack
variant never touches any cache slice and emits no cache events. -/
theorem adapter_cache_protocol :
    (∀ (u : String) (net : Net) (w : World) (m : LeetcodeMetrics), u ≠ "" →
        Cache.get w.lcCache w.time (lcKey u) = some m →
        Adapters.leetcode (some u) net w = ⟨.ok m, w, [.cacheGet (lcKey u)]⟩) ∧
    (∀ (u : String) (net : Net) (w : World) (d : List AcSubmission), u ≠ "" →
        Cache.get w.lcCache w.time (lcKey u) = none → net.lc u 0 = .ok (some d) →
        Adapters.leetcode (some u) net w =
          ⟨.ok (lcParse d),
            { w with
                time := (RateLimiter.wait w.leetcodeLimiter w.time).1
                leetcodeLimiter := (RateLimiter.wait w.leetcodeLimiter w.time).2
                lcCache := Cache.set w.lcCache
                  (RateLimiter.wait w.leetcodeLimiter w.time).1 (lcKey u) (lcParse d) },
            [.cacheGet (lcKey u), .rateWait "leetcode", .remote "leetcode",
              .cacheSet (lcKey u)]⟩) ∧
    (∀ (u : String) (net net2 : Net) (w : World) (d : List AcSubmission) (t2 : Int),
        u ≠ "" → Cache.get w.lcCache w.time (lcKey u) = none →
        net.lc u 0 = .ok (some d) →
        t2 - (RateLimiter.wait w.leetcodeLimiter w.time).1 < CONFIG.CACHE_DURATION →
        Adapters.leetcode (some u) net2
            { (Adapters.leetcode (some u) net w).w with time := t2 } =
          ⟨.ok (lcParse d), { (Adapters.leetcode (some u) net w).w with time := t2 },
            [.cacheGet (lcKey u)]⟩) ∧
    (∀ (u : String) (net : Net) (w : World), u ≠ "" →
        Cache.get w.lcCache w.time (lcKey u) = none → net.lc u 0 = .ok none →
        Adapters.leetcode (some u) net w =
          ⟨.ok lcZero,
            { w with
                time := (RateLimiter.wait w.leetcodeLimiter w.time).1
                leetcodeLimiter := (RateLimiter.wait w.leetcodeLimiter w.time).2 },
            [.cacheGet (lcKey u), .rateWait "leetcode", .remote "leetcode"]⟩) ∧
    (∀ (u : String) (net : Net) (w : World) (m : GithubMetrics), u ≠ "" →
        Cache.get w.ghCache w.time (ghKey u) = some m →
        Adapters.github (some u) net w = ⟨.ok m, w, [.cacheGet (ghKey u)]⟩) ∧
    (∀ (u : String) (net : Net) (w : World) (repos prs : Nat), u ≠ "" →
        Cache.get w.ghCache w.time (ghKey u) = none → net.ghUser u 0 = .ok repos →
        net.ghSearch u 0 = .ok prs →
        Adapters.github (some u) net w =
          ⟨.ok ⟨repos, prs⟩,
            { w with
                time := (RateLimiter.wait w.githubSearchLimiter
                  (RateLimiter.wait w.githubUserLimiter w.time).1).1
                githubUserLimiter := (RateLimiter.wait w.githubUserLimiter w.time).2
                githubSearchLimiter := (RateLimiter.wait w.githubSearchLimiter
                  (RateLimiter.wait w.githubUserLimiter w.time).1).2
                ghCache := Cache.set w.ghCache
                  (RateLimiter.wait w.githubSearchLimiter
                    (RateLimiter.wait w.githubUserLimiter w.time).1).1
                  (ghKey u) ⟨repos, prs⟩ },
            [.cacheGet (ghKey u), .rateWait "githubUser", .remote "githubUser",
              .rateWait "githubSearch", .remote "githubSearch", .cacheSet (ghKey u)]⟩) ∧
    (∀ (u : String) (net net2 : Net) (w : World) (repos prs : Nat) (t2 : Int),
        u ≠ "" → Cache.get w.ghCache w.time (ghKey u) = none →
        net.ghUser u 0 = .ok repos → net.ghSearch u 0 = .ok prs →
        t2 - (RateLimiter.wait w.githubSearchLimiter
          (RateLimiter.wait w.githubUserLimiter w.time).1).1 < CONFIG.CACHE_DURATION →
        Adapters.github (some u) net2
            { (Adapters.github (some u) net w).w with time := t2 } =
          ⟨.ok ⟨repos, prs⟩, { (Adapters.github (some u) net w).w with time := t2 },
            [.cacheGet (ghKey u)]⟩) ∧
    (∀ (u : String) (net : Net) (w : World) (m : CFMetrics), u ≠ "" →
        Cache.get w.cfCache w.time (cfKey u) = some m →
        Adapters.codeforces (some u) net w = ⟨.ok m, w, [.cacheGet (cfKey u)]⟩) ∧
    (∀ (u : String) (net : Net) (w : World) (resp : CFResponse), u ≠ "" →
        Cache.get w.cfCache w.time (cfKey u) = none → net.cf u 0 = .ok resp →
        resp.status = "OK" →
        Adapters.codeforces (some u) net w =
          ⟨.ok ⟨cfSolvedCount resp.result⟩,
            { w with
                time := (RateLimiter.wait w.codeforcesLimiter w.time).1
                codeforcesLimiter := (RateLimiter.wait w.codeforcesLimiter w.time).2
                cfCache := Cache.set w.cfCache
                  (RateLimiter.wait w.codeforcesLimiter w.time).1 (cfKey u)
                  ⟨cfSolvedCount resp.result⟩ },
            [.cacheGet (cfKey u), .rateWait "codeforces", .remote "codeforces",
              .cacheSet (cfKey u)]⟩) ∧
    (∀ (u : String) (net net2 : Net) (w : World) (resp : CFResponse) (t2 : Int),
        u ≠ "" → Cache.get w.cfCache w.time (cfKey u) = none →
        net.cf u 0 = .ok resp → resp.status = "OK" →
        t2 - (RateLimiter.wait w.codeforcesLimiter w.time).1 < CONFIG.CACHE_DURATION →
        Adapters.codeforces (some u) net2
            { (Adapters.codeforces (some u) net w).w with time := t2 } =
          ⟨.ok ⟨cfSolvedCount resp.result⟩,
            { (Adapters.codeforces (some u) net w).w with time := t2 },
            [.cacheGet (cfKey u)]⟩) ∧
    (∀ (u : String) (net : Net) (w : World) (resp : CFResponse), u ≠ "" →
        Cache.get w.cfCache w.time (cfKey u) = none → net.cf u 0 = .ok resp →
        resp.status ≠ "OK" →
        Adapters.codeforces (some u) net w =
          ⟨.ok cfZero,
            { w with
                time := (RateLimiter.wait w.codeforcesLimiter w.time).1
                codeforcesLimiter := (RateLimiter.wait w.codeforcesLimiter w.time).2 },
            [.cacheGet (cfKey u), .rateWait "codeforces", .remote "codeforces"]⟩) ∧
    (∀ (u : String) (net : Net) (w : World) (m : AtcoderMetrics), u ≠ "" →
        Cache.get w.acCache w.time (acKey u) = some m →
        Adapters.atcoder (some u) net w = ⟨.ok m, w, [.cacheGet (acKey u)]⟩) ∧
    (∀ (u : String) (net : Net) (w : World) (cnt : Option Nat), u ≠ "" →
        Cache.get w.acCache w.time (acKey u) = none → net.ac u 0 = .ok cnt →
        Adapters.atcoder (some u) net w =
          ⟨.ok ⟨cnt.getD 0⟩,
            { w with
                time := (RateLimiter.wait w.generalLimiter w.time).1
                generalLimiter := (RateLimiter.wait w.generalLimiter w.time).2
                acCache := Cache.set w.acCache
                  (RateLimiter.wait w.generalLimiter w.time).1 (acKey u)
                  ⟨cnt.getD 0⟩ },
            [.cacheGet (acKey u), .rateWait "general", .remote "atcoder",
              .cacheSet (acKey u)]⟩) ∧
    (∀ (u : String) (net net2 : Net) (w : World) (cnt : Option Nat) (t2 : Int),
        u ≠ "" → Cache.get w.acCache w.time (acKey u) = none →
        net.ac u 0 = .ok cnt →
        t2 - (RateLimiter.wait w.generalLimiter w.time).1 < CONFIG.CACHE_DURATION →
        Adapters.atcoder (some u) net2
            { (Adapters.atcoder (some u) net w).w with time := t2 } =
          ⟨.ok ⟨cnt.getD 0⟩, { (Adapters.atcoder (some u) net w).w with time := t2 },
            [.cacheGet (acKey u)]⟩) ∧
    (∀ (sd : Option SkillrackId) (net : Net) (w : World),
        ((Adapters.skillrack sd net w).w.lcCache = w.lcCache ∧
          (Adapters.skillrack sd net w).w.ghCache = w.ghCache ∧
          (Adapters.skillrack sd net w).w.cfCache = w.cfCache ∧
          (Adapters.skillrack sd net w).w.acCache = w.acCache) ∧
        ∀ k, Ev.cacheGet k ∉ (Adapters.skillrack sd net w).ev ∧
          Ev.cacheSet k ∉ (Adapters.skillrack sd net w).ev) := by
  refine ⟨leetcode_cache_hit, leetcode_miss_fetch_writes_cache, ?_,
    leetcode_absent_payload_no_cache_write, github_cache_hit,
    github_miss_fetch_writes_cache, ?_, codeforces_cache_hit,
    codeforces_miss_fetch_writes_cache, ?_, codeforces_non_ok_no_cache_write,
    atcoder_cache_hit, atcoder_miss_fetch_writes_cache, ?_,
    skillrack_no_cache_access⟩
  · intro u net net2 w d t2 hu hmiss hnet httl
    rw [leetcode_miss_fetch_writes_cache u net w d hu hmiss hnet]
    refine leetcode_cache_hit u net2 _ (lcParse d) hu ?_
    simp [Cache.get, Cache.set, httl]
  · intro u net net2 w repos prs t2 hu hmiss hU hS httl
    rw [github_miss_fetch_writes_cache u net w repos prs hu hmiss hU hS]
    refine github_cache_hit u net2 _ ⟨repos, prs⟩ hu ?_
    simp [Cache.get, Cache.set, httl]
  · intro u net net2 w resp t2 hu hmiss hnet hst httl
    rw [codeforces_miss_fetch_writes_cache u net w resp hu hmiss hnet hst]
    refine codeforces_cache_hit u net2 _ ⟨cfSolvedCount resp.result⟩ hu ?_
    simp [Cache.get, Cache.set, httl]
  · intro u net net2 w cnt t2 hu hmiss hnet httl
    rw [atcoder_miss_fetch_writes_cache u net w cnt hu hmiss hnet]
    refine atcoder_cache_hit u net2 _ ⟨cnt.getD 0⟩ hu ?_
    simp [Cache.get, Cache.set, httl]

/-- Witness for `adapter_cache_protocol`: one concrete second-fetch per
cache-using variant — "alice" on LeetCode with scenario A's counts, "bob" on
GitHub with 12 repos and 3 merged PRs, "carl" on Codeforces with 2 distinct
solved problems, "dave" on AtCoder with 42 solved — each first fetched from
the initial world and re-fetched 1000 ms later with the network completely
down, served from the cache with only a cache read; plus the codeforces
non-OK fetch that returns zeros without a cache write. -/
theorem adapter_cache_protocol_witness :
    Adapters.leetcode (some "alice") netFail
        { (Adapters.leetcode (some "alice") netScenA (World.init 0)).w with time := 1000 } =
      ⟨.ok (lcParse dataScenA),
        { (Adapters.leetcode (some "alice") netScenA (World.init 0)).w with time := 1000 },
        [.cacheGet (lcKey "alice")]⟩ ∧
    Adapters.github (some "bob") netFail
        { (Adapters.github (some "bob") netScenGh (World.init 0)).w with time := 1000 } =
      ⟨.ok ⟨12, 3⟩,
        { (Adapters.github (some "bob") netScenGh (World.init 0)).w with time := 1000 },
        [.cacheGet (ghKey "bob")]⟩ ∧
    Adapters.codeforces (some "carl") netFail
        { (Adapters.codeforces (some "carl") netScenCf (World.init 0)).w with time := 1000 } =
      ⟨.ok ⟨cfSolvedCount cfRespA.result⟩,
        { (Adapters.codeforces (some "carl") netScenCf (World.init 0)).w with time := 1000 },
        [.cacheGet (cfKey "carl")]⟩ ∧
    Adapters.atcoder (some "dave") netFail
        { (Adapters.atcoder (some "dave") netScenAc (World.init 0)).w with time := 1000 } =
      ⟨.ok ⟨(some 42).getD 0⟩,
        { (Adapters.atcoder (some "dave") netScenAc (World.init 0)).w with time := 1000 },
        [.cacheGet (acKey "dave")]⟩ ∧
    (Adapters.codeforces (some "carl") netCfBad (World.init 0)).w.cfCache
        (cfKey "carl") = none :=
  ⟨adapter_cache_protocol.2.2.1 "alice" netScenA netFail (World.init 0) dataScenA 1000
      (by decide) rfl rfl (by decide),
    adapter_cache_protocol.2.2.2.2.2.2.1 "bob" netScenGh netFail (World.init 0) 12 3
      1000 (by decide) rfl rfl rfl (by decide),
    adapter_cache_protocol.2.2.2.2.2.2.2.2.2.1 "carl" netScenCf netFail (World.init 0)
      cfRespA 1000 (by decide) rfl rfl rfl (by decide),
    adapter_cache_protocol.2.2.2.2.2.2.2.2.2.2.2.2.2.1 "dave" netScenAc netFail
      (World.init 0) (some 42) 1000 (by decide) rfl rfl (by decide),
    by
      rw [adapter_cache_protocol.2.2.2.2.2.2.2.2.2.2.1 "carl" netCfBad (World.init 0)
        ⟨"FAILED", []⟩ (by decide) rfl rfl (by decide)]
      rfl⟩

/-- C9: the SkillRack adapter short-circuits every identity that is a bare
string, or an object whose `id` or `key` is missing/empty, to
`{ solved: 0, userInfo: null }` with the world untouched and an empty event
trace — no network request, no rate-limiter wait, no retry, no cache access —
even though `scrapeSkillRack` itself supports bare-string identities through
the fallback profile URL (last conjunct: called directly on a non-empty bare
string it waits on the limiter and fetches the fallback URL built from the
username); only an object identity with both `id` and `key` truthy is handed
to the scraper. -/
theorem skillrack_identity_gating :
    (∀ (s : String) (net : Net) (w : World),
        Adapters.skillrack (some (.inl s)) net w = ⟨srZero, w, []⟩) ∧
    (∀ (u i k : Option String) (net : Net) (w : World),
        (truthyS i && truthyS k) = false →
        Adapters.skillrack (some (.inr (u, i, k))) net w = ⟨srZero, w, []⟩) ∧
    (∀ (u i k : Option String) (net : Net) (w : World),
        (truthyS i && truthyS k) = true →
        Adapters.skillrack (some (.inr (u, i, k))) net w =
          scrapeSkillRack (some (.inr (u, i, k))) net w) ∧
    (∀ (s : String) (net : Net) (w : World), s ≠ "" →
        (scrapeSkillRack (some (.inl s)) net w).ev =
          [.rateWait "skillrack", .remote (srFallbackUrl s)]) := by
  refine ⟨fun s net w => rfl, ?_, ?_, ?_⟩
  · intro u i k net w h
    simp [Adapters.skillrack, h]
  · intro u i k net w h
    simp [Adapters.skillrack, h]
  · intro s net w hs
    have hbe : (s == "") = false := by simp [hs]
    simp only [scrapeSkillRack, truthyS, hbe, Bool.not_false, Bool.and_false,
      Bool.false_eq_true, if_false, if_true, Option.getD_some]
    rcases hsr : net.sr (srFallbackUrl s) with e | html
    · simp [hsr]
    · simp only [hsr]
      split <;> rfl

/-- Witness for `skillrack_identity_gating`: the legacy string identity
"carol" is short-circuited by the adapter; an object missing its key is
short-circuited; the mapped object identity reaches the scraper; and
`scrapeSkillRack` itself, on the bare string "carol", fetches the fallback
profile URL after the rate wait. -/
theorem skillrack_identity_gating_witness :
    Adapters.skillrack (some (.inl "carol")) netFail (World.init 0) =
      ⟨srZero, World.init 0, []⟩ ∧
    Adapters.skillrack (some (.inr (some "bob", some "123", none))) netFail
        (World.init 0) = ⟨srZero, World.init 0, []⟩ ∧
    Adapters.skillrack (some srIdObj) netFail (World.init 0) =
      scrapeSkillRack (some srIdObj) netFail (World.init 0) ∧
    (scrapeSkillRack (some (.inl "carol")) netFail (World.init 0)).ev =
      [.rateWait "skillrack", .remote (srFallbackUrl "carol")] :=
  ⟨skillrack_identity_gating.1 "carol" netFail (World.init 0),
    skillrack_identity_gating.2.1 (some "bob") (some "123") none netFail (World.init 0)
      (by decide),
    skillrack_identity_gating.2.2.1 (some "bob") (some "123") (some "k1") netFail
      (World.init 0) (by decide),
    skillrack_identity_gating.2.2.2 "carol" netFail (World.init 0) (by decide)⟩

/-- Folding `pickTopLc` never decreases the running maximum's LeetCode total. -/
lemma foldl_pickTopLc_ge_init (l : List AggregateResult) :
    ∀ init : AggregateResult,
      init.data.leetcode.total ≤ (l.foldl pickTopLc init).data.leetcode.total := by
  induction l with
  | nil => intro init; exact le_rfl
  | cons a l ih =>
    intro init
    refine le_trans ?_ (ih (pickTopLc init a))
    unfold pickTopLc
    split
    · omega
    · exact le_rfl

/-- The result of folding `pickTopLc` dominates every element's total. -/
lemma foldl_pickTopLc_ge_mem (l : List AggregateResult) :
    ∀ (init r : AggregateResult), r ∈ l →
      r.data.leetcode.total ≤ (l.foldl pickTopLc init).data.leetcode.total := by
  induction l with
  | nil => intro init r hr; cases hr
  | cons a l ih =>
    intro init r hr
    rcases List.mem_cons.mp hr with rfl | hr
    · refine le_trans ?_ (foldl_pickTopLc_ge_init l (pickTopLc init r))
      unfold pickTopLc
      split
      · exact le_rfl
      · omega
    · exact ih (pickTopLc init a) r hr

/-- C10 counterexample: the summary's error count does not equal the number
of results carrying an error field.  On the singleton list whose record
carries the (present but empty) error field `""`, `generateSummary` reports
0 errors while 1 result carries an error field — `results.filter(r => r.error)`
counts JS-truthiness, not field presence. -/
theorem generateSummary_error_count_cex :
    Except.map (fun s => s.performance.errors) (generateSummary [rEmptyErr]) = .ok 0 ∧
    ([rEmptyErr].filter fun r => r.error.isSome).length = 1 := by
  exact ⟨rfl, rfl⟩

/-- C10 amended: `generateSummary` is only defined for a non-empty result
list: applied to the empty list it fails (the top-solver reduction has no
initial value and throws a `TypeError`); its per-platform averages divide the
platform total by the list length (shown for leetcode); and for every
non-empty result list it returns a summary whose error count equals the
number of results carrying a NON-EMPTY error field and whose top LeetCode
solver's problem count is greater than or equal to every result's leetcode
total. -/
theorem generateSummary_contract :
    (generateSummary [] =
      .error "TypeError: Reduce of empty array with no initial value") ∧
    (∀ results : List AggregateResult, results ≠ [] →
      ∃ s, generateSummary results = .ok s ∧
        s.performance.errors =
          (results.filter fun r => r.error.isSome && !(r.error.getD "" == "")).length ∧
        s.leetcode.avgProblems = (s.leetcode.totalProblems : ℚ) / (results.length : ℚ) ∧
        ∃ top, s.leetcode.topSolver = some top ∧
          ∀ r ∈ results, r.data.leetcode.total ≤ top.problems) := by
  refine ⟨rfl, ?_⟩
  intro results hne
  rcases results with _ | ⟨x, xs⟩
  · exact absurd rfl hne
  refine ⟨_, rfl, ?_, rfl, ⟨_, rfl, ?_⟩⟩
  · show (List.filter jsTruthyErr (x :: xs)).length =
      ((x :: xs).filter fun r => r.error.isSome && !(r.error.getD "" == "")).length
    congr 1
    apply List.filter_congr
    intro r _
    unfold jsTruthyErr truthyS
    rcases r.error with _ | e <;> simp
  · intro r hr
    show r.data.leetcode.total ≤ (xs.foldl pickTopLc x).data.leetcode.total
    rcases List.mem_cons.mp hr with rfl | hr
    · exact foldl_pickTopLc_ge_init xs r
    · exact foldl_pickTopLc_ge_mem xs x r hr

/-- Witness for `generateSummary_contract`: the singleton list whose record
carries the error message "boom" yields a summary with exactly one counted
error. -/
theorem generateSummary_contract_witness :
    ∃ s, generateSummary [rErr] = .ok s ∧ s.performance.errors = 1 := by
  obtain ⟨s, hs, herr, -, -⟩ :=
    generateSummary_contract.2 [rErr] (List.cons_ne_nil _ _)
  exact ⟨s, hs, by rw [herr]; rfl⟩
